import Mathlib

/- `Rat.mul`, `Rat.inv`, `Rat.add` and `Rat.sub` are `@[irreducible]` in the
   library; the concrete witnesses below evaluate rational arithmetic by
   kernel reduction, so restore their reducibility for this development. -/
attribute [local semireducible] Rat.mul Rat.inv Rat.add Rat.sub

/- Shallow embedding of the trakt/discord-presence core: the reconciler
   utilities of src/main.py and the Discord IPC client of src/discord_ipc.py.

   Conventions of the embedding:
   * Python `int` is modelled as `Int`; Python floats that carry media
     progress / runtime values are modelled as exact rationals (`ℚ`);
     `int(x)` truncation toward zero is `pyInt`.
   * Fallible Python code that returns `None` on failure is modelled with
     `Option`; code that can raise is modelled with `Except`.
   * I/O outcomes (socket connects, OS-level sends/receives) are passed in
     explicitly as parameters, so every definition is a pure function of the
     program state and the environment's answers. -/

/-- Python `int(x)` applied to a real value truncates toward zero
    (`Rat.floor` keeps this kernel-computable; `-(-q).floor` is the
    ceiling). -/
def pyInt (q : ℚ) : Int := if 0 ≤ q then q.floor else -((-q).floor)

/-- A `datetime.datetime` value: calendar components, microseconds, and an
    optional UTC offset in seconds (`tzoff = none` models a naive value,
    i.e. `tzinfo is None`). -/
structure PyDateTime where
  year : Nat
  month : Nat
  day : Nat
  hour : Nat
  minute : Nat
  second : Nat
  usec : Nat
  tzoff : Option Int
deriving DecidableEq, Repr

/-- The shapes of Python values fed to `_normalize_timestamp` (src/main.py):
    `None`, `int`, `float`, `str`, `datetime`, or any other object (which
    the function rejects via its final `else: return None`). -/
inductive PyVal where
  | pnone
  | pint (n : Int)
  | pfloat (q : ℚ)
  | pstr (s : String)
  | pdt (d : PyDateTime)
  | pother
deriving DecidableEq, Repr

/-- Characters stripped by Python `str.strip()`. -/
def isPySpace (c : Char) : Bool :=
  c = ' ' || c = '\t' || c = '\n' || c = '\r' || c = '\x0b' || c = '\x0c'

/-- Python `str.strip()`. -/
def pyStrip (cs : List Char) : List Char :=
  ((cs.dropWhile isPySpace).reverse.dropWhile isPySpace).reverse

def digitVal (c : Char) : Nat := c.toNat - 48

/-- Two mandatory decimal digits (a zero-padded ISO-8601 field). -/
def parse2Digits : List Char → Option (Nat × List Char)
  | a :: b :: rest =>
      if a.isDigit && b.isDigit then some (digitVal a * 10 + digitVal b, rest)
      else none
  | _ => none

/-- Four mandatory decimal digits (the ISO-8601 year field). -/
def parse4Digits : List Char → Option (Nat × List Char)
  | a :: b :: c :: d :: rest =>
      if a.isDigit && b.isDigit && c.isDigit && d.isDigit then
        some (((digitVal a * 10 + digitVal b) * 10 + digitVal c) * 10 + digitVal d, rest)
      else none
  | _ => none

def expectChar (c : Char) : List Char → Option (List Char)
  | x :: rest => if x = c then some rest else none
  | [] => none

def isLeapYear (y : Nat) : Bool :=
  y % 4 == 0 && (y % 100 != 0 || y % 400 == 0)

/-- Month lengths as validated by the `datetime` constructor. -/
def daysInMonth (y m : Nat) : Nat :=
  if m = 2 then (if isLeapYear y then 29 else 28)
  else if m = 4 ∨ m = 6 ∨ m = 9 ∨ m = 11 then 30
  else 31

/-- A fractional-seconds field `.d...` scaled to microseconds; digits past the
    sixth are truncated, shorter runs are zero-extended, as in `datetime`. -/
def fracToUsec (ds : List Char) : Nat :=
  let six := ds.take 6
  six.foldl (fun a c => a * 10 + digitVal c) 0 * 10 ^ (6 - six.length)

/-- The time-of-day part `HH[:MM[:SS[.ffff...]]]` accepted by
    `datetime.fromisoformat`. Returns hour, minute, second, microsecond. -/
def parseTimePart (cs : List Char) : Option (Nat × Nat × Nat × Nat × List Char) :=
  match parse2Digits cs with
  | none => none
  | some (h, r1) =>
    match expectChar ':' r1 with
    | none => some (h, 0, 0, 0, r1)
    | some r2 =>
      match parse2Digits r2 with
      | none => none
      | some (mi, r3) =>
        match expectChar ':' r3 with
        | none => some (h, mi, 0, 0, r3)
        | some r4 =>
          match parse2Digits r4 with
          | none => none
          | some (s, r5) =>
            match r5 with
            | '.' :: r6 =>
                let ds := r6.takeWhile Char.isDigit
                if ds.isEmpty then none
                else some (h, mi, s, fracToUsec ds, r6.dropWhile Char.isDigit)
            | _ => some (h, mi, s, 0, r5)

/-- A trailing UTC offset `±HH[:MM[:SS]]` / `±HHMM` as accepted by
    `datetime.fromisoformat` and the `%z` directive of the `strptime`
    fallback formats in `_normalize_timestamp`. Yields the offset in
    seconds; an absent offset yields `none` (a naive datetime). -/
def parseOffsetPart (cs : List Char) : Option (Option Int × List Char) :=
  match cs with
  | [] => some (none, [])
  | c :: r =>
    if c = '+' || c = '-' then
      match parse2Digits r with
      | none => none
      | some (hh, r1) =>
        let rest3 :=
          match expectChar ':' r1 with
          | some r2 =>
            (match parse2Digits r2 with
             | none => none
             | some (mm, r3) =>
               match expectChar ':' r3 with
               | none => some (mm, 0, r3)
               | some r4 =>
                 match parse2Digits r4 with
                 | none => none
                 | some (ss, r5) => some (mm, ss, r5))
          | none =>
            (match parse2Digits r1 with
             | some (mm, r2) => some (mm, 0, r2)
             | none => some (0, 0, r1))
        match rest3 with
        | none => none
        | some (mm, ss, rr) =>
          let total : Int := (hh : Int) * 3600 + (mm : Int) * 60 + (ss : Int)
          if mm < 60 ∧ ss < 60 ∧ total < 86400 then
            some (some (if c = '-' then -total else total), rr)
          else none
    else none

/-- The ISO-8601 datetime grammar accepted by `_normalize_timestamp`'s string
    branch: `datetime.fromisoformat` (after the code's trailing-`Z`
    preprocessing) together with its `strptime` fallback formats
    `%Y-%m-%dT%H:%M:%S[.%f]%z` and `%Y-%m-%d %H:%M:%S%z`. Date fields are
    zero-padded and range-checked exactly as the `datetime` constructor
    does; the date/time separator may be any single character. -/
def parseIsoDatetime (cs : List Char) : Option PyDateTime :=
  match parse4Digits cs with
  | none => none
  | some (y, r0) =>
    match expectChar '-' r0 with
    | none => none
    | some r1 =>
      match parse2Digits r1 with
      | none => none
      | some (m, r2) =>
        match expectChar '-' r2 with
        | none => none
        | some r3 =>
          match parse2Digits r3 with
          | none => none
          | some (d, r4) =>
            if 1 ≤ y ∧ y ≤ 9999 ∧ 1 ≤ m ∧ m ≤ 12 ∧ 1 ≤ d ∧ d ≤ daysInMonth y m then
              match r4 with
              | [] => some ⟨y, m, d, 0, 0, 0, 0, none⟩
              | _ :: r5 =>
                match parseTimePart r5 with
                | none => none
                | some (h, mi, s, us, r6) =>
                  match parseOffsetPart r6 with
                  | none => none
                  | some (off, r7) =>
                    if r7 = [] ∧ h < 24 ∧ mi < 60 ∧ s < 60 then
                      some ⟨y, m, d, h, mi, s, us, off⟩
                    else none
            else none

/-- Days from 1970-01-01 to the given civil date (proleptic Gregorian),
    the arithmetic underlying `datetime.timestamp()`. -/
def daysFromCivil (y m d : Nat) : Int :=
  let yi : Int := if m ≤ 2 then (y : Int) - 1 else (y : Int)
  let era : Int := yi / 400
  let yoe : Int := yi - era * 400
  let mp : Int := if m ≤ 2 then (m : Int) + 9 else (m : Int) - 3
  let doy : Int := (153 * mp + 2) / 5 + (d : Int) - 1
  let doe : Int := yoe * 365 + yoe / 4 - yoe / 100 + doy
  era * 146097 + doe - 719468

/-- `value.replace(tzinfo=timezone.utc)` applied when `dt.tzinfo is None`
    (src/main.py line 596-597). -/
def replaceUtcIfNaive (dt : PyDateTime) : PyDateTime :=
  match dt.tzoff with
  | none => { dt with tzoff := some 0 }
  | some _ => dt

/-- `int(dt.timestamp())` for an aware datetime: the POSIX timestamp of its
    components minus the UTC offset, with microseconds truncated by `int()`. -/
def datetimeToUnix (dt : PyDateTime) : Int :=
  let naive : Int :=
    daysFromCivil dt.year dt.month dt.day * 86400
      + (dt.hour : Int) * 3600 + (dt.minute : Int) * 60 + (dt.second : Int)
  let aware : Int := naive - (match dt.tzoff with | some o => o | none => 0)
  pyInt ((aware : ℚ) + (dt.usec : ℚ) / 1000000)

/-- `_normalize_timestamp` (src/main.py lines 568-599): `None` stays `None`;
    `int`/`float` values are returned as `int(value)`; strings are stripped,
    a trailing `"Z"` is rewritten to `"+00:00"`, and the result is parsed as
    ISO-8601 (unparseable strings yield `None`); naive datetimes are given
    the UTC timezone; the result is `int(dt.timestamp())`. Every other value
    shape yields `None`. -/
def normalizeTimestamp : PyVal → Option Int
  | .pnone => none
  | .pint n => some n
  | .pfloat q => some (pyInt q)
  | .pdt dt => some (datetimeToUnix (replaceUtcIfNaive dt))
  | .pstr s =>
      let c0 := pyStrip s.data
      let c1 :=
        if c0.getLast? = some 'Z' then c0.dropLast ++ ('+' :: '0' :: '0' :: ':' :: '0' :: '0' :: [])
        else c0
      match parseIsoDatetime c1 with
      | some dt => some (datetimeToUnix (replaceUtcIfNaive dt))
      | none => none
  | .pother => none

/-- The `show` record attached to an episode item (only its `runtime` field
    is consulted by the reconciler). -/
structure TraktShow where
  runtime : Option ℚ
deriving DecidableEq, Repr

/-- The "watching item" record as consumed by the reconciler functions of
    src/main.py. `progress` and `runtime` are the values after the code's
    `float(...)` conversion (`none` when the attribute is absent or the
    conversion raised); the three timestamp attributes hold the raw Python
    values handed to `_normalize_timestamp`. `showRef` models the `show`
    attribute (absent or `None` collapses to `none`). -/
structure WatchingItem where
  progress : Option ℚ
  runtime : Option ℚ
  showRef : Option TraktShow
  started_at : PyVal
  watched_at : PyVal
  last_watched_at : PyVal
deriving DecidableEq, Repr

/-- Runtime resolution in `_estimate_start_from_progress`: the item's own
    `runtime`, falling back to its show's `runtime`. -/
def resolvedRuntime (it : WatchingItem) : Option ℚ :=
  match it.runtime with
  | some r => some r
  | none =>
    match it.showRef with
    | some sh => sh.runtime
    | none => none

/-- `_estimate_start_from_progress` (src/main.py lines 613-643). Returns the
    estimated start timestamp and the progress percentage, or `none` when
    progress or runtime is absent or non-positive. `if not progress or
    progress <= 0` collapses to `p ≤ 0` over ℚ, and likewise for runtime. -/
def estimateStartFromProgress (now : Int) (it : WatchingItem) : Option (Int × ℚ) :=
  match it.progress with
  | none => none
  | some p =>
    if p ≤ 0 then none
    else
      match resolvedRuntime it with
      | none => none
      | some r =>
        if r ≤ 0 then none
        else
          let secondsElapsed := pyInt (r * 60 * (p / 100))
          if secondsElapsed < 0 then none
          else some (max (now - secondsElapsed) 0, p)

/-- The module-level `CURRENT_ACTIVITY_STATE` dict of src/main.py. -/
structure RecState where
  itemKey : Option String
  startTimestamp : Option Int
  rawStartedAt : Option (String × PyVal)
deriving DecidableEq, Repr

/-- `_reset_activity_state`: all three fields back to `None`. -/
def resetActivityState : RecState := ⟨none, none, none⟩

/-- The `for attr in candidate_attrs` loop of `_resolve_activity_start`:
    the first of `started_at`, `watched_at`, `last_watched_at` that
    normalizes to a timestamp, together with the `(attr, raw value)` pair
    recorded as `raw_source`. -/
def firstRawTs (it : WatchingItem) : Option Int × Option (String × PyVal) :=
  match normalizeTimestamp it.started_at with
  | some ts => (some ts, some ("started_at", it.started_at))
  | none =>
    match normalizeTimestamp it.watched_at with
    | some ts => (some ts, some ("watched_at", it.watched_at))
    | none =>
      match normalizeTimestamp it.last_watched_at with
      | some ts => (some ts, some ("last_watched_at", it.last_watched_at))
      | none => (none, none)

/-- Lines 724-733 of `_resolve_activity_start`: fall back to `now` when no
    source yielded a timestamp, persist the new state, return the result. -/
def persistFresh (now : Int) (key : String) (start0 : Option Int)
    (raw0 : Option (String × PyVal)) : Int × RecState :=
  let s := start0.getD now
  (s, ⟨some key, some s, raw0⟩)

/-- `_resolve_activity_start` (src/main.py lines 685-733) as a pure function
    of the current `CURRENT_ACTIVITY_STATE`, returning the timestamp and the
    successor state. A progress estimate always overwrites (`raw_source[0] ==
    "progress"`, which the attribute loop can never produce); otherwise, when
    the previous state has the same key and a timestamp, and the new raw
    source is `None` or equal to the recorded one, the previous timestamp is
    returned with the state untouched. -/
def resolveActivityStart (now : Int) (it : WatchingItem) (key : String)
    (st : RecState) : Int × RecState :=
  match estimateStartFromProgress now it with
  | some (ts, p) =>
      (ts, ⟨some key, some ts, some ("progress", PyVal.pfloat p)⟩)
  | none =>
      let sr := firstRawTs it
      match st.startTimestamp with
      | some prev =>
          if st.itemKey = some key ∧ (sr.2 = none ∨ sr.2 = st.rawStartedAt) then
            (prev, st)
          else persistFresh now key sr.1 sr.2
      | none => persistFresh now key sr.1 sr.2

/- Part 2: the Discord IPC client of src/discord_ipc.py.

   JSON documents are modelled by `Json`; the payloads this client builds
   carry only null, booleans, integers, strings, arrays and string-keyed
   objects, so JSON numbers are modelled as integers. `dumpsVal` models
   `json.dumps(...)` with its default options (ASCII escaping, separators
   `", "` and `": "`); `loads` models `json.loads`, with `none` standing
   for a raised `JSONDecodeError`. -/

inductive Json where
  | null
  | bool (b : Bool)
  | num (n : Int)
  | str (s : String)
  | arr (elems : List Json)
  | obj (fields : List (String × Json))

/-- The `{` character (written numerically throughout). -/
def lbraceCh : Char := Char.ofNat 123

/-- The `}` character. -/
def rbraceCh : Char := Char.ofNat 125

/-- Lowercase hexadecimal digit, as emitted by `json.dumps` unicode escapes. -/
def hexDigitCh (n : Nat) : Char :=
  if n < 10 then Char.ofNat (48 + n) else Char.ofNat (87 + n)

/-- Four-digit hexadecimal rendering of `n < 0x10000`. -/
def hex4Chars (n : Nat) : List Char :=
  [hexDigitCh (n / 4096 % 16), hexDigitCh (n / 256 % 16),
   hexDigitCh (n / 16 % 16), hexDigitCh (n % 16)]

/-- `json.dumps` escaping of one character with the default
    `ensure_ascii=True`: short escapes for quote, backslash and the five
    named controls, `\uXXXX` for every other character outside `0x20..0x7E`,
    with a UTF-16 surrogate pair for characters above `0xFFFF`. -/
def escapeChar (c : Char) : List Char :=
  if c = '"' then ['\\', '"']
  else if c = '\\' then ['\\', '\\']
  else if c = '\n' then ['\\', 'n']
  else if c = '\t' then ['\\', 't']
  else if c = '\r' then ['\\', 'r']
  else if c = '\x08' then ['\\', 'b']
  else if c = '\x0c' then ['\\', 'f']
  else if c.toNat < 32 ∨ 126 < c.toNat then
    if c.toNat ≤ 65535 then '\\' :: 'u' :: hex4Chars c.toNat
    else
      ('\\' :: 'u' :: hex4Chars (55296 + (c.toNat - 65536) / 1024))
        ++ ('\\' :: 'u' :: hex4Chars (56320 + (c.toNat - 65536) % 1024))
  else [c]

def escapeString : List Char → List Char
  | [] => []
  | c :: cs => escapeChar c ++ escapeString cs

/-- Decimal digits of a natural number, as Python renders integers. -/
def natRepr (n : Nat) : List Char :=
  if n < 10 then [Char.ofNat (48 + n)]
  else natRepr (n / 10) ++ [Char.ofNat (48 + n % 10)]
decreasing_by exact Nat.div_lt_self (by omega) (by omega)

/-- Python decimal rendering of an integer. -/
def intRepr (n : Int) : List Char :=
  if n < 0 then '-' :: natRepr n.natAbs else natRepr n.toNat

mutual

/-- `json.dumps` with default options, producing the character sequence of
    the resulting `str`. -/
def dumpsVal : Json → List Char
  | Json.num n => intRepr n
  | Json.null => ['n', 'u', 'l', 'l']
  | Json.bool true => ['t', 'r', 'u', 'e']
  | Json.bool false => ['f', 'a', 'l', 's', 'e']
  | Json.str s => '"' :: (escapeString s.data ++ ['"'])
  | Json.arr [] => ['[', ']']
  | Json.arr (x :: xs) => '[' :: (dumpsVal x ++ (dumpsArrTail xs ++ [']']))
  | Json.obj [] => [lbraceCh, rbraceCh]
  | Json.obj (m :: ms) =>
      lbraceCh :: (dumpsMember m ++ (dumpsMemTail ms ++ [rbraceCh]))

/-- One `"key": value` member, `": "` separator as in the default encoder. -/
def dumpsMember : String × Json → List Char
  | (k, v) => '"' :: (escapeString k.data ++ ('"' :: ':' :: ' ' :: dumpsVal v))

/-- Remaining array elements, each preceded by the default `", "`. -/
def dumpsArrTail : List Json → List Char
  | [] => []
  | x :: xs => ',' :: ' ' :: (dumpsVal x ++ dumpsArrTail xs)

/-- Remaining object members, each preceded by the default `", "`. -/
def dumpsMemTail : List (String × Json) → List Char
  | [] => []
  | m :: ms => ',' :: ' ' :: (dumpsMember m ++ dumpsMemTail ms)

end

/-- UTF-8 encoding of one character (`str.encode('utf-8')`). -/
def utf8EncodeChar (c : Char) : List Nat :=
  let n := c.toNat
  if n < 128 then [n]
  else if n < 2048 then [192 + n / 64, 128 + n % 64]
  else if n < 65536 then [224 + n / 4096, 128 + n / 64 % 64, 128 + n % 64]
  else [240 + n / 262144, 128 + n / 4096 % 64, 128 + n / 64 % 64, 128 + n % 64]

def utf8Encode : List Char → List Nat
  | [] => []
  | c :: cs => utf8EncodeChar c ++ utf8Encode cs

/-- Strict UTF-8 decoding (`bytes.decode('utf-8')`), `none` for a raised
    `UnicodeDecodeError`: continuation bytes are checked and overlongforms,
    surrogates and values beyond U+10FFFF are rejected. -/
def utf8Decode : List Nat → Option (List Char)
  | [] => some []
  | b :: rest =>
    if b < 128 then (utf8Decode rest).map (fun cs => Char.ofNat b :: cs)
    else if b < 194 then none
    else if b < 224 then
      match rest with
      | [] => none
      | b1 :: r =>
        if 128 ≤ b1 ∧ b1 < 192 then
          (utf8Decode r).map (fun cs => Char.ofNat ((b - 192) * 64 + (b1 - 128)) :: cs)
        else none
    else if b < 240 then
      match rest with
      | [] => none
      | b1 :: rest2 =>
        match rest2 with
        | [] => none
        | b2 :: r =>
          if (128 ≤ b1 ∧ b1 < 192) ∧ (128 ≤ b2 ∧ b2 < 192)
              ∧ ¬(b = 224 ∧ b1 < 160) ∧ ¬(b = 237 ∧ 160 ≤ b1) then
            (utf8Decode r).map (fun cs =>
              Char.ofNat (((b - 224) * 64 + (b1 - 128)) * 64 + (b2 - 128)) :: cs)
          else none
    else if b < 245 then
      match rest with
      | [] => none
      | b1 :: rest2 =>
        match rest2 with
        | [] => none
        | b2 :: rest3 =>
          match rest3 with
          | [] => none
          | b3 :: r =>
            if (128 ≤ b1 ∧ b1 < 192) ∧ (128 ≤ b2 ∧ b2 < 192) ∧ (128 ≤ b3 ∧ b3 < 192)
                ∧ ¬(b = 240 ∧ b1 < 144) ∧ ¬(b = 244 ∧ 144 ≤ b1) then
              (utf8Decode r).map (fun cs =>
                Char.ofNat ((((b - 240) * 64 + (b1 - 128)) * 64 + (b2 - 128)) * 64
                  + (b3 - 128)) :: cs)
            else none
    else none

/-- Whitespace characters skipped between JSON tokens by `json.loads`. -/
def isWsChar (c : Char) : Bool :=
  c = ' ' || c = '\t' || c = '\n' || c = '\r'

def skipWs : List Char → List Char
  | c :: rest => if isWsChar c then skipWs rest else c :: rest
  | [] => []

/-- Hexadecimal digit value; the decoder accepts both cases. -/
def hexVal (c : Char) : Option Nat :=
  if '0' ≤ c ∧ c ≤ '9' then some (c.toNat - 48)
  else if 'a' ≤ c ∧ c ≤ 'f' then some (c.toNat - 87)
  else if 'A' ≤ c ∧ c ≤ 'F' then some (c.toNat - 55)
  else none

/-- Two-character escapes recognised by the decoder. -/
def escapeMap : Char → Option Char
  | '"' => some '"'
  | '\\' => some '\\'
  | '/' => some '/'
  | 'b' => some '\x08'
  | 'f' => some '\x0c'
  | 'n' => some '\n'
  | 'r' => some '\r'
  | 't' => some '\t'
  | _ => none

/-- Combine four hex digits into a code unit, as the CPython scanner does. -/
def hexVal4 (a b c d : Char) : Option Nat :=
  match hexVal a, hexVal b, hexVal c, hexVal d with
  | some ha, some hb, some hc, some hd =>
      some (((ha * 16 + hb) * 16 + hc) * 16 + hd)
  | _, _, _, _ => none

mutual

/-- The string scanner of `json.loads` (strict mode), after the opening
    quote: literal characters below `0x20` are rejected, `\uXXXX` escapes
    are decoded with UTF-16 surrogate pairs recombined. A lone surrogate —
    kept as a lone surrogate `str` character by Python, which has no
    counterpart in `Char` — is mapped to `none`; such inputs cannot be
    produced by the encoder above. The fuel argument is a termination
    bound only, decremented once per step; `parseJString` supplies one
    more than the input length, which the fuel accounting below shows is
    never exhausted. -/
def parseStringBody : Nat → List Char → Option (List Char × List Char)
  | fu + 1, c :: rest =>
    if c = '"' then some ([], rest)
    else if c = '\\' then parseEsc fu rest
    else if c.toNat < 32 then none
    else (parseStringBody fu rest).map (fun p => (c :: p.1, p.2))
  | _, _ => none

/-- After a backslash: either a `\uXXXX` escape or a two-character one. -/
def parseEsc : Nat → List Char → Option (List Char × List Char)
  | fu + 1, e :: rest2 =>
    if e = 'u' then parseUEsc fu rest2
    else
      match escapeMap e with
      | some ch => (parseStringBody fu rest2).map (fun p => (ch :: p.1, p.2))
      | none => none
  | _, _ => none

/-- After `\u`: four hex digits; a high surrogate must be followed by a
    `\uXXXX` low surrogate, a lone low surrogate is rejected. -/
def parseUEsc : Nat → List Char → Option (List Char × List Char)
  | fu + 1, a :: b :: c2 :: d :: rest3 =>
    (match hexVal4 a b c2 d with
     | none => none
     | some n =>
       if 55296 ≤ n ∧ n ≤ 56319 then parseLowSur fu n rest3
       else if 56320 ≤ n ∧ n ≤ 57343 then none
       else (parseStringBody fu rest3).map (fun p => (Char.ofNat n :: p.1, p.2)))
  | _, _ => none

/-- The `\uXXXX` low-surrogate continuation after a high surrogate `n`. -/
def parseLowSur : Nat → Nat → List Char → Option (List Char × List Char)
  | fu + 1, n, e2 :: u2 :: a2 :: b2 :: c3 :: d2 :: rest4 =>
    if e2 = '\\' ∧ u2 = 'u' then
      match hexVal4 a2 b2 c3 d2 with
      | some m =>
        if 56320 ≤ m ∧ m ≤ 57343 then
          (parseStringBody fu rest4).map (fun p =>
            (Char.ofNat (65536 + (n - 55296) * 1024 + (m - 56320)) :: p.1, p.2))
        else none
      | none => none
    else none
  | _, _, _ => none

end

def parseJString (cs : List Char) : Option (String × List Char) :=
  (parseStringBody (cs.length + 1) cs).map (fun p => (String.mk p.1, p.2))

/-- Fuel the scanner consumes on one encoded character: one step per
    scanner hop (at most one hop per character consumed, so a fuel of
    input length plus one always suffices). -/
def escFuel (c : Char) : Nat :=
  if c = '"' then 2
  else if c = '\\' then 2
  else if c = '\n' then 2
  else if c = '\t' then 2
  else if c = '\r' then 2
  else if c = '\x08' then 2
  else if c = '\x0c' then 2
  else if c.toNat < 32 ∨ 126 < c.toNat then
    (if c.toNat ≤ 65535 then 3 else 4)
  else 1

/-- Total scanner fuel consumed on an escaped string. -/
def escFuelSum : List Char → Nat
  | [] => 0
  | c :: t => escFuel c + escFuelSum t

/-- The value of a run of decimal digits (`int()` applied to the digit
    substring the scanner's regex matched). -/
def digitsVal (ds : List Char) : Nat := ds.foldl (fun a c => a * 10 + digitVal c) 0

/-- After an integer literal, `.`/`e`/`E` would continue a float literal;
    floats are outside this payload model, so such continuations (which the
    encoder never produces) are rejected rather than parsed. -/
def numStopOk (cs : List Char) : Bool :=
  match cs with
  | c :: _ => !(c = '.' || c = 'e' || c = 'E')
  | [] => true

def headIsDigit (cs : List Char) : Bool :=
  match cs with
  | c :: _ => c.isDigit
  | [] => false

/-- The JSON unsigned-integer grammar (`0` or a nonzero digit followed by
    digits; leading zeros rejected as Python's scanner does). -/
def parseNatNum (cs : List Char) : Option (Nat × List Char) :=
  match cs with
  | [] => none
  | c :: rest =>
    if c = '0' then
      if headIsDigit rest then none
      else if numStopOk rest then some (0, rest) else none
    else if c.isDigit then
      let rest2 := rest.dropWhile Char.isDigit
      if numStopOk rest2 then some (digitsVal (c :: rest.takeWhile Char.isDigit), rest2)
      else none
    else none

def parseNumber (cs : List Char) : Option (Json × List Char) :=
  match cs with
  | [] => none
  | c :: rest =>
    if c = '-' then (parseNatNum rest).map (fun p => (Json.num (-(p.1 : Int)), p.2))
    else (parseNatNum cs).map (fun p => (Json.num ((p.1 : Nat) : Int), p.2))

/-- Fixed three-character keyword tail (`ull`, `rue`) of a JSON literal. -/
def parseLit3 (a b c : Char) (v : Json) : List Char → Option (Json × List Char)
  | x1 :: x2 :: x3 :: r =>
      if x1 = a ∧ x2 = b ∧ x3 = c then some (v, r) else none
  | _ => none

/-- Fixed four-character keyword tail (`alse`) of a JSON literal. -/
def parseLit4 (a b c d : Char) (v : Json) : List Char → Option (Json × List Char)
  | x1 :: x2 :: x3 :: x4 :: r =>
      if x1 = a ∧ x2 = b ∧ x3 = c ∧ x4 = d then some (v, r) else none
  | _ => none

mutual

/-- The value scanner of `json.loads`. The fuel argument is a termination
    bound only: `loads` supplies one more than the input length, which the
    round-trip development shows is never exhausted on parseable input. -/
def parseValue : Nat → List Char → Option (Json × List Char)
  | 0, _ => none
  | Nat.succ f, cs =>
    match cs with
    | [] => none
    | c :: rest =>
      if c = '"' then (parseJString rest).map (fun p => (Json.str p.1, p.2))
      else if c = '[' then
        match skipWs rest with
        | [] => none
        | c1 :: r1 =>
          if c1 = ']' then some (Json.arr [], r1)
          else
            match parseValue f (c1 :: r1) with
            | some (v, r2) => parseArrTail f r2 [v]
            | none => none
      else if c = lbraceCh then
        match skipWs rest with
        | [] => none
        | c1 :: r1 =>
          if c1 = rbraceCh then some (Json.obj [], r1)
          else if c1 = '"' then
            match parseJString r1 with
            | some (k, r2) =>
              (match skipWs r2 with
               | c3 :: r3 =>
                 if c3 = ':' then
                   match parseValue f (skipWs r3) with
                   | some (v, r4) => parseMemTail f r4 [(k, v)]
                   | none => none
                 else none
               | [] => none)
            | none => none
          else none
      else if c = 'n' then parseLit3 'u' 'l' 'l' Json.null rest
      else if c = 't' then parseLit3 'r' 'u' 'e' (Json.bool true) rest
      else if c = 'f' then parseLit4 'a' 'l' 's' 'e' (Json.bool false) rest
      else parseNumber cs

/-- Array continuation: `, value`* then `]`. -/
def parseArrTail : Nat → List Char → List Json → Option (Json × List Char)
  | 0, _, _ => none
  | Nat.succ f, cs, acc =>
    match skipWs cs with
    | [] => none
    | c1 :: r =>
      if c1 = ',' then
        match parseValue f (skipWs r) with
        | some (v, r2) => parseArrTail f r2 (acc ++ [v])
        | none => none
      else if c1 = ']' then some (Json.arr acc, r)
      else none

/-- Object continuation: `, "key": value`* then the closing brace. -/
def parseMemTail : Nat → List Char → List (String × Json) → Option (Json × List Char)
  | 0, _, _ => none
  | Nat.succ f, cs, acc =>
    match skipWs cs with
    | [] => none
    | c1 :: r =>
      if c1 = ',' then
        match skipWs r with
        | [] => none
        | c2 :: r1 =>
          if c2 = '"' then
            match parseJString r1 with
            | some (k, r2) =>
              (match skipWs r2 with
               | c3 :: r3 =>
                 if c3 = ':' then
                   match parseValue f (skipWs r3) with
                   | some (v, r4) => parseMemTail f r4 (acc ++ [(k, v)])
                   | none => none
                 else none
               | [] => none)
            | none => none
          else none
      else if c1 = rbraceCh then some (Json.obj acc, r)
      else none

end


/-- `json.loads`: scan one value, then require only whitespace to remain
    ("Extra data" otherwise). `none` models a raised `JSONDecodeError`. -/
def loads (cs : List Char) : Option Json :=
  match parseValue (cs.length + 1) (skipWs cs) with
  | some (v, rest) => if skipWs rest = [] then some v else none
  | none => none

/-- `struct.pack('<I', n)` for an in-range value. -/
def packUInt32 (n : Nat) : List Nat :=
  [n % 256, n / 256 % 256, n / 65536 % 256, n / 16777216 % 256]

/-- `struct.unpack('<I', bs)` on exactly four bytes. -/
def unpackUInt32 (bs : List Nat) : Nat :=
  match bs with
  | [a, b, c, d] => a + 256 * b + 65536 * c + 16777216 * d
  | _ => 0

/-- `json.dumps(data).encode('utf-8')`: the payload bytes of a frame
    (src/discord_ipc.py line 156). -/
def framePayload (data : Json) : List Nat := utf8Encode (dumpsVal data)

/-- The bytes `_send_data` writes: `struct.pack('<II', op_code, len(payload))
    + payload` (lines 156-164). `struct.pack` raises `struct.error` outside
    the `uint32` range, modelled by `none`. -/
def frameBytes (opCode : Nat) (data : Json) : Option (List Nat) :=
  let payload := framePayload data
  if opCode < 4294967296 ∧ payload.length < 4294967296 then
    some (packUInt32 opCode ++ (packUInt32 payload.length ++ payload))
  else none

/-- The frame decoding performed by `_receive_data` (lines 179-195) when the
    channel delivers the full frame: unpack `(op_code, length)` from the
    8-byte header, take `length` payload bytes, decode UTF-8 and parse JSON.
    The source computes `op_code` at line 188 and drops it from the return
    value; it is kept here so the round-trip can speak about it. -/
def decodeFrame (bs : List Nat) : Option (Nat × Json) :=
  if bs.length < 8 then none
  else
    let op := unpackUInt32 (bs.take 4)
    let len := unpackUInt32 ((bs.drop 4).take 4)
    match utf8Decode ((bs.drop 8).take len) with
    | none => none
    | some cs => (loads cs).map (fun v => (op, v))

/-- `_receive_data` exactly as written (Unix branch): one `recv(8)` whose
    result is `headerRead` (at most 8 bytes), the `< 8` check, then one
    `recv(length)` whose result is `payloadRead length` — `recv` may return
    fewer bytes than requested and the code performs no further check, so a
    short payload is handed to `json.loads` as-is. Any decode/parse
    exception is caught and becomes `None`. -/
def receiveData (socketPresent : Bool) (headerRead : List Nat)
    (payloadRead : Nat → List Nat) : Option Json :=
  if socketPresent = false then none
  else if headerRead.length < 8 then none
  else
    let len := unpackUInt32 ((headerRead.drop 4).take 4)
    match utf8Decode (payloadRead len) with
    | none => none
    | some cs => loads cs

/-- One optional dict entry: `if x is not None: d[k] = f(x)`. -/
def optEntry (k : String) (o : Option α) (f : α → Json) : List (String × Json) :=
  match o with
  | some a => [(k, f a)]
  | none => []

/-- A conditionally-attached sub-object (`activity['timestamps'] = ...`). -/
def groupIf (cond : Bool) (k : String) (entries : List (String × Json)) :
    List (String × Json) :=
  if cond then [(k, Json.obj entries)] else []

/-- Python `a or b` on strings: the empty string is falsy. -/
def pyStrOr (a : Option String) (b : String) : String :=
  match a with
  | some s => if s = "" then b else s
  | none => b

/-- A possibly-`None` string stored into a dict slot (serialized as null). -/
def optStrNull : Option String → Json
  | some s => Json.str s
  | none => Json.null

/-- The keyword arguments of `DiscordIPC.update` that shape the activity
    object. `inst` models `instance` (default `True`), `endTime` models
    `end`; both originals are reserved words here. -/
structure UpdateArgs where
  details : Option String
  state : Option String
  start : Option Int
  endTime : Option Int
  largeImage : Option String
  largeText : Option String
  smallImage : Option String
  smallText : Option String
  partyId : Option String
  partySize : Option (List Int)
  joinSecret : Option String
  spectateSecret : Option String
  matchSecret : Option String
  buttons : Option (List Json)
  inst : Option Bool
  activityType : Int

/-- All-`None` arguments with the `update` signature's defaults
    (`instance=True`, `activity_type=0`). -/
def defaultArgs : UpdateArgs :=
  ⟨none, none, none, none, none, none, none, none, none, none, none, none,
   none, none, some true, 0⟩

/-- The wire activity object built by `DiscordIPC.update`
    (src/discord_ipc.py lines 263-325), as an insertion-ordered dict:
    the WATCHING base (`type`, `application_id`, unconditional `details` and
    `state`) or the standard base (`name` with the `or` fallback chain,
    conditional `details`/`state`), followed by the conditional
    `timestamps`/`assets`/`party`/`secrets` groups, `buttons` truncated to
    two, and `instance`. -/
def buildActivity (clientId : String) (a : UpdateArgs) : List (String × Json) :=
  let base :=
    if a.activityType = 3 then
      [("type", Json.num a.activityType), ("application_id", Json.str clientId),
       ("details", optStrNull a.details), ("state", optStrNull a.state)]
    else
      [("type", Json.num a.activityType), ("application_id", Json.str clientId),
       ("name", Json.str (pyStrOr a.details (pyStrOr a.state "Discord IPC")))]
        ++ optEntry "details" a.details Json.str
        ++ optEntry "state" a.state Json.str
  base
    ++ groupIf (a.start.isSome || a.endTime.isSome) "timestamps"
         (optEntry "start" a.start Json.num ++ optEntry "end" a.endTime Json.num)
    ++ groupIf (a.largeImage.isSome || a.smallImage.isSome) "assets"
         (optEntry "large_image" a.largeImage Json.str
           ++ optEntry "large_text" a.largeText Json.str
           ++ optEntry "small_image" a.smallImage Json.str
           ++ optEntry "small_text" a.smallText Json.str)
    ++ groupIf (a.partyId.isSome || a.partySize.isSome) "party"
         (optEntry "id" a.partyId Json.str
           ++ (match a.partySize with
               | some (x :: y :: _) => [("size", Json.arr [Json.num x, Json.num y])]
               | _ => []))
    ++ groupIf (a.joinSecret.isSome || a.spectateSecret.isSome || a.matchSecret.isSome)
         "secrets"
         (optEntry "join" a.joinSecret Json.str
           ++ optEntry "spectate" a.spectateSecret Json.str
           ++ optEntry "match" a.matchSecret Json.str)
    ++ optEntry "buttons" a.buttons (fun l => Json.arr (l.take 2))
    ++ optEntry "instance" a.inst Json.bool

/-- The key list of a wire object (dict keys in insertion order). -/
def keysOf (l : List (String × Json)) : List String := l.map Prod.fst

/-- The `SET_ACTIVITY` envelope of `update`/`clear` (lines 327-334,
    351-358); the fresh `uuid4` nonce and the resolved pid are inputs. -/
def updateEnvelope (pid : Int) (nonce : String)
    (activity : Option (List (String × Json))) : Json :=
  Json.obj [("cmd", Json.str "SET_ACTIVITY"),
            ("args", Json.obj [("pid", Json.num pid),
                               ("activity", match activity with
                                            | some act => Json.obj act
                                            | none => Json.null)]),
            ("nonce", Json.str nonce)]

/-- The mutable state of one `DiscordIPC` object: `connected`, the channel
    handle (`socket`, carrying the pipe index it is bound to) and `pipe`. -/
structure IPCState where
  connected : Bool
  socket : Option Nat
  pipe : Nat
deriving DecidableEq, Repr

/-- State after `__init__`. -/
def initIPCState : IPCState := ⟨false, none, 0⟩

def connErrMsg : String :=
  "Could not find Discord installed and running on this machine."

instance {ε α : Type} [DecidableEq ε] [DecidableEq α] : DecidableEq (Except ε α) :=
  fun a b =>
  match a, b with
  | Except.error e1, Except.error e2 =>
      if h : e1 = e2 then isTrue (by rw [h]) else isFalse (by simp [h])
  | Except.error _, Except.ok _ => isFalse (by simp)
  | Except.ok _, Except.error _ => isFalse (by simp)
  | Except.ok x, Except.ok y =>
      if h : x = y then isTrue (by rw [h]) else isFalse (by simp [h])

/-- The environment's answers for one pipe index during `connect`: the
    outcome of `_connect_pipe` (`.error` models a raised exception) and,
    if a channel was obtained, the outcome of `_handshake`. -/
structure PipeEnv where
  connectRes : Except Unit Bool
  handshakeRes : Except Unit Bool
deriving DecidableEq, Repr

/-- A pipe index that does not produce a ready session: `_connect_pipe`
    raised or returned `False`, or it connected and `_handshake` returned
    `False` or raised. -/
def pipeAttemptFails (pe : PipeEnv) : Prop :=
  pe.connectRes = Except.error () ∨ pe.connectRes = Except.ok false ∨
    (pe.connectRes = Except.ok true ∧
      (pe.handshakeRes = Except.ok false ∨ pe.handshakeRes = Except.error ()))

instance (pe : PipeEnv) : Decidable (pipeAttemptFails pe) := by
  unfold pipeAttemptFails; infer_instance

/-- The `for pipe_id in range(10)` loop of `connect` (lines 57-69): a
    successful `_connect_pipe` stores the channel and the index; a
    successful handshake marks the session connected and returns `True`;
    a failed handshake runs `_disconnect()` and continues; an exception
    anywhere in the `try` body is swallowed and the loop continues.
    Exhaustion reaches line 69: `raise ConnectionError(...)`. -/
def connectAttempts (env : Nat → PipeEnv) :
    List Nat → IPCState → Except String Bool × IPCState
  | [], st => (Except.error connErrMsg, st)
  | i :: rest, st =>
    match (env i).connectRes with
    | Except.error _ => connectAttempts env rest st
    | Except.ok false => connectAttempts env rest st
    | Except.ok true =>
      let st1 : IPCState := { st with socket := some i, pipe := i }
      match (env i).handshakeRes with
      | Except.ok true => (Except.ok true, { st1 with connected := true })
      | Except.ok false =>
          connectAttempts env rest { st1 with socket := none, connected := false }
      | Except.error _ => connectAttempts env rest st1

/-- `DiscordIPC.connect` (lines 46-69): `True` immediately when already
    connected, otherwise the discovery loop over indices 0-9. -/
def connect (env : Nat → PipeEnv) (st : IPCState) : Except String Bool × IPCState :=
  if st.connected then (Except.ok true, st) else connectAttempts env (List.range 10) st

/-- `connect_to_discord` (src/main.py lines 740-754): construct a fresh
    client, call `connect()`, and catch every exception, degrading it to
    `(None, False)`. -/
def connectToDiscord (env : Nat → PipeEnv) : Option IPCState × Bool :=
  match connect env initIPCState with
  | (Except.ok _, st) => (some st, true)
  | (Except.error _, _) => (none, false)

/-- `_send_data` (lines 142-167): `False` without a socket; otherwise the
    OS write outcome (an exception during `sendall` is caught and becomes
    `False`). The payload built from `data` does not influence the outcome;
    it is received here to mirror the call shape. -/
def sendFrameOk (st : IPCState) (data : Json) (osSendOk : Bool) : Bool :=
  match st.socket with
  | none => false
  | some _ => osSendOk

/-- `DiscordIPC.update` (lines 217-336): `False` when not connected;
    otherwise build the activity object and the envelope and return
    `_send_data`'s boolean. No state field is assigned anywhere in the
    method, so the state is returned unchanged. -/
def updateCall (st : IPCState) (clientId : String) (a : UpdateArgs)
    (pid : Int) (nonce : String) (osSendOk : Bool) : Bool × IPCState :=
  if st.connected = false then (false, st)
  else (sendFrameOk st (updateEnvelope pid nonce (some (buildActivity clientId a))) osSendOk, st)

/-- `DiscordIPC.clear` (lines 338-360): the same envelope with
    `activity: None`. -/
def clearCall (st : IPCState) (pid : Int) (nonce : String) (osSendOk : Bool) :
    Bool × IPCState :=
  if st.connected = false then (false, st)
  else (sendFrameOk st (updateEnvelope pid nonce none) osSendOk, st)

/-- A continuation on which a just-parsed integer literal ends: empty, or a
    character that neither extends the digit run nor turns it into a float
    literal. Every delimiter the encoder emits after a number satisfies
    this. -/
def numDelim (cs : List Char) : Bool :=
  match cs with
  | c :: _ => !(c.isDigit || c = '.' || c = 'e' || c = 'E')
  | [] => true

/-- Zero-padded two-digit decimal rendering (property-statement helper). -/
def pad2 (n : Nat) : List Char :=
  [Char.ofNat (48 + n / 10 % 10), Char.ofNat (48 + n % 10)]

/-- Zero-padded four-digit decimal rendering (property-statement helper). -/
def pad4 (n : Nat) : List Char :=
  [Char.ofNat (48 + n / 1000 % 10), Char.ofNat (48 + n / 100 % 10),
   Char.ofNat (48 + n / 10 % 10), Char.ofNat (48 + n % 10)]

/-- The canonical `YYYY-MM-DDTHH:MM:SS` rendering of a naive datetime. This
    is not part of the embedded program: it exists to state, universally,
    that the timestamp-normalization utility maps every in-range ISO-8601
    string of this shape to the POSIX timestamp of its components. -/
def renderIsoBasic (y m d h mi s : Nat) : List Char :=
  pad4 y ++ ('-' :: (pad2 m ++ ('-' :: (pad2 d ++
    ('T' :: (pad2 h ++ (':' :: (pad2 mi ++ (':' :: pad2 s)))))))))

/- Part 3: lemmas and the claim theorems. -/

theorem ratFloor_intCast (n : Int) : ((n : ℚ)).floor = n := by
  rw [Rat.floor_def']
  simp

theorem pyInt_eq_floor (q : ℚ) (h : 0 ≤ q) : pyInt q = ⌊q⌋ := by
  unfold pyInt
  rw [if_pos h, Rat.floor_def']
  exact Rat.floor_def.symm

theorem keysOf_append (l1 l2 : List (String × Json)) :
    keysOf (l1 ++ l2) = keysOf l1 ++ keysOf l2 := List.map_append _ _ _

theorem mem_keysOf_groupIf (s k : String) (c : Bool) (es : List (String × Json)) :
    s ∈ keysOf (groupIf c k es) ↔ (c = true ∧ s = k) := by
  cases c <;> simp [groupIf, keysOf]

theorem mem_keysOf_optEntry {α : Type} (s k : String) (o : Option α) (f : α → Json) :
    s ∈ keysOf (optEntry k o f) ↔ (o.isSome = true ∧ s = k) := by
  cases o <;> simp [optEntry, keysOf]

/-- Claim C1 failure-path lemma: when every pipe index in the list fails to
    deliver a ready session, the discovery loop reaches the terminal
    `raise ConnectionError` with `connected` still false. -/
theorem connectAttempts_allFail (env : Nat → PipeEnv) (pipes : List Nat)
    (st : IPCState) (hconn : st.connected = false)
    (hfail : ∀ i ∈ pipes, pipeAttemptFails (env i)) :
    (connectAttempts env pipes st).1 = Except.error connErrMsg ∧
    (connectAttempts env pipes st).2.connected = false := by
  induction pipes generalizing st with
  | nil => exact ⟨rfl, hconn⟩
  | cons i rest ih =>
      have hi := hfail i (by simp)
      have hrest : ∀ j ∈ rest, pipeAttemptFails (env j) := fun j hj =>
        hfail j (List.mem_cons_of_mem _ hj)
      rcases hi with h1 | h1 | ⟨h1, h2⟩
      · simpa [connectAttempts, h1] using ih _ hconn hrest
      · simpa [connectAttempts, h1] using ih _ hconn hrest
      · rcases h2 with h2 | h2
        · simpa [connectAttempts, h1, h2] using ih _ rfl hrest
        · simpa [connectAttempts, h1, h2] using
            ih { st with socket := some i, pipe := i } hconn hrest

/-- Claim C1 (amended): when every channel index 0-9 is tried and none
    yields a successful connection and handshake, `DiscordIPC.connect`
    raises `ConnectionError` — it does not return `False` — while the
    session stays disconnected; the caller `connect_to_discord` catches the
    exception and degrades it to `(None, False)`, so no exception escapes
    that wrapper. -/
theorem c1_connect_exhaustion (env : Nat → PipeEnv) (st : IPCState)
    (hconn : st.connected = false)
    (hfail : ∀ i < 10, pipeAttemptFails (env i)) :
    (connect env st).1 = Except.error connErrMsg ∧
    (connect env st).2.connected = false ∧
    connectToDiscord env = (none, false) := by
  have hall : ∀ i ∈ List.range 10, pipeAttemptFails (env i) := by
    intro i hi; exact hfail i (List.mem_range.mp hi)
  have h1 := connectAttempts_allFail env (List.range 10) st hconn hall
  have h2 := connectAttempts_allFail env (List.range 10) initIPCState rfl hall
  refine ⟨?_, ?_, ?_⟩
  · rw [connect, if_neg (by simp [hconn])]; exact h1.1
  · rw [connect, if_neg (by simp [hconn])]; exact h1.2
  · rw [connectToDiscord, connect, if_neg (by decide)]
    rcases hcase : connectAttempts env (List.range 10) initIPCState with ⟨res, stf⟩
    rw [hcase] at h2
    rcases res with e | b
    · rfl
    · exact absurd h2.1 (by simp)

/-- Witness for C1 at the concrete all-failing environment. -/
theorem c1_connect_exhaustion_witness :
    (connect (fun _ => ⟨Except.ok false, Except.ok false⟩) initIPCState).1
        = Except.error connErrMsg ∧
    (connect (fun _ => ⟨Except.ok false, Except.ok false⟩) initIPCState).2.connected
        = false ∧
    connectToDiscord (fun _ => ⟨Except.ok false, Except.ok false⟩) = (none, false) :=
  c1_connect_exhaustion (fun _ => ⟨Except.ok false, Except.ok false⟩) initIPCState rfl
    (fun _ _ => Or.inr (Or.inl rfl))

/-- Counterexample for C1 as stated: with every pipe refusing the
    connection, `connect()` ends in a raised `ConnectionError`, not in a
    `False` return value. -/
theorem c1_counterexample :
    (connect (fun _ => ⟨Except.ok false, Except.ok false⟩) initIPCState).1
        = Except.error connErrMsg ∧
    (connect (fun _ => ⟨Except.ok false, Except.ok false⟩) initIPCState).1
        ≠ Except.ok false := by
  refine ⟨by decide, by decide⟩

/-- Claim C2 (amended): a failed frame send makes `update` return `False`,
    but the method assigns no state: the session object is returned exactly
    as it was, still marked connected with its channel handle in place.
    (Only a raised exception —handled by the caller in main.py— tears the
    connection down.) -/
theorem c2_update_send_failure (st : IPCState) (clientId : String) (a : UpdateArgs)
    (pid : Int) (nonce : String) (hconn : st.connected = true) :
    (updateCall st clientId a pid nonce false).1 = false ∧
    (updateCall st clientId a pid nonce false).2 = st := by
  unfold updateCall
  rw [if_neg (by simp [hconn])]
  refine ⟨?_, rfl⟩
  unfold sendFrameOk
  cases st.socket <;> rfl

/-- Witness for C2 at a concrete ready session. -/
theorem c2_update_send_failure_witness :
    (updateCall ⟨true, some 0, 0⟩ "cid" defaultArgs 1 "n" false).1 = false ∧
    (updateCall ⟨true, some 0, 0⟩ "cid" defaultArgs 1 "n" false).2 = ⟨true, some 0, 0⟩ :=
  c2_update_send_failure ⟨true, some 0, 0⟩ "cid" defaultArgs 1 "n" rfl

/-- Counterexample for C2 as stated: after an `update` whose send failed,
    the session is still connected and the channel is still open, contrary
    to the claimed transition to Disconnected. -/
theorem c2_counterexample :
    (updateCall ⟨true, some 0, 0⟩ "cid" defaultArgs 1 "nonce" false).1 = false ∧
    (updateCall ⟨true, some 0, 0⟩ "cid" defaultArgs 1 "nonce" false).2.connected = true ∧
    (updateCall ⟨true, some 0, 0⟩ "cid" defaultArgs 1 "nonce" false).2.socket = some 0 := by
  refine ⟨rfl, rfl, rfl⟩

/-- Claim C3 (amended): for `activity_type = 3` (WATCHING) the wire activity
    object never contains a `name` key and always contains `type`,
    `application_id`, `details` and `state` (the latter two even when their
    values are `None` or empty), whatever the other arguments are; the
    conditional groups and the `instance` flag may add further keys beyond
    these four. -/
theorem c3_watching_fields (clientId : String) (a : UpdateArgs) :
    "name" ∉ keysOf (buildActivity clientId { a with activityType := 3 }) ∧
    "type" ∈ keysOf (buildActivity clientId { a with activityType := 3 }) ∧
    "application_id" ∈ keysOf (buildActivity clientId { a with activityType := 3 }) ∧
    "details" ∈ keysOf (buildActivity clientId { a with activityType := 3 }) ∧
    "state" ∈ keysOf (buildActivity clientId { a with activityType := 3 }) := by
  unfold buildActivity
  rw [if_pos rfl]
  simp only [keysOf_append, List.mem_append, List.append_assoc, mem_keysOf_groupIf,
    mem_keysOf_optEntry]
  simp [keysOf]

/-- Counterexample for C3 as stated: with WATCHING and only `details`
    supplied, the wire object's keys are not exactly
    `{type, application_id, details, state}` — the default `instance=True`
    always contributes an `instance` key. -/
theorem c3_counterexample :
    keysOf (buildActivity "cid"
        { defaultArgs with details := some "Show", state := some "", activityType := 3 })
      = ["type", "application_id", "details", "state", "instance"] ∧
    "instance" ∉ (["type", "application_id", "details", "state"] : List String) :=
  ⟨rfl, by decide⟩

/-- Claim C6 (amended): `timestamps` is present iff `start` or `end` is
    non-null and `secrets` iff one of the three secrets is, but `assets` is
    gated only on the two image fields (a text-only call emits no group) and
    `party` is gated on `party_id`/`party_size` (and may be transmitted as an
    empty sub-object when only an undersized `party_size` is given). With
    `start` alone the group is exactly `{start: v}` with no `end` key, and
    with only `details` set all four groups are omitted. -/
theorem c6_conditional_groups (clientId : String) (a : UpdateArgs) :
    ("timestamps" ∈ keysOf (buildActivity clientId a)
        ↔ (a.start ≠ none ∨ a.endTime ≠ none)) ∧
    ("assets" ∈ keysOf (buildActivity clientId a)
        ↔ (a.largeImage ≠ none ∨ a.smallImage ≠ none)) ∧
    ("party" ∈ keysOf (buildActivity clientId a)
        ↔ (a.partyId ≠ none ∨ a.partySize ≠ none)) ∧
    ("secrets" ∈ keysOf (buildActivity clientId a)
        ↔ (a.joinSecret ≠ none ∨ a.spectateSecret ≠ none ∨ a.matchSecret ≠ none)) ∧
    (∀ v : Int,
      ("timestamps", Json.obj [("start", Json.num v)])
        ∈ buildActivity clientId { a with start := some v, endTime := none }) ∧
    (∀ d : String,
      keysOf (buildActivity clientId { defaultArgs with details := some d })
        = ["type", "application_id", "name", "details", "instance"]) := by
  refine ⟨?_, ?_, ?_, ?_, ?_, ?_⟩
  · unfold buildActivity
    by_cases h3 : a.activityType = 3 <;>
      simp only [h3, if_pos, if_neg, if_true, if_false, keysOf_append, List.mem_append,
        mem_keysOf_groupIf, mem_keysOf_optEntry] <;>
      simp [keysOf, Option.isSome_iff_ne_none]
  · unfold buildActivity
    by_cases h3 : a.activityType = 3 <;>
      simp only [h3, if_pos, if_neg, if_true, if_false, keysOf_append, List.mem_append,
        mem_keysOf_groupIf, mem_keysOf_optEntry] <;>
      simp [keysOf, Option.isSome_iff_ne_none]
  · unfold buildActivity
    by_cases h3 : a.activityType = 3 <;>
      simp only [h3, if_pos, if_neg, if_true, if_false, keysOf_append, List.mem_append,
        mem_keysOf_groupIf, mem_keysOf_optEntry] <;>
      simp [keysOf, Option.isSome_iff_ne_none]
  · unfold buildActivity
    by_cases h3 : a.activityType = 3 <;>
      simp only [h3, if_pos, if_neg, if_true, if_false, keysOf_append, List.mem_append,
        mem_keysOf_groupIf, mem_keysOf_optEntry] <;>
      simp [keysOf, Option.isSome_iff_ne_none, or_assoc]
  · intro v
    unfold buildActivity
    by_cases h3 : a.activityType = 3 <;>
      simp [h3, groupIf, optEntry]
  · intro d
    rfl

/-- Counterexample for C6 as stated: a call whose only non-null assets
    constituent is `large_text` transmits no `assets` group at all, and a
    call with `party_size=[1]` transmits `party` as an empty sub-object. -/
theorem c6_counterexample :
    "assets" ∉ keysOf (buildActivity "cid" { defaultArgs with largeText := some "tip" }) ∧
    ({ defaultArgs with largeText := some "tip" } : UpdateArgs).largeText ≠ none ∧
    List.lookup "party" (buildActivity "cid" { defaultArgs with partySize := some [1] })
      = some (Json.obj []) := by
  refine ⟨by decide, by decide, rfl⟩

/-- Claim C9 (code bug): `_receive_data` performs a single `recv(length)`
    with no short-read check, so a truncated payload that happens to parse
    as JSON is returned as a complete frame. Here the header declares a
    3-byte payload `b"123"`, the socket delivers only `b"12"`, and the
    function returns `12` instead of the `None` the claim requires. -/
theorem c9_short_read_accepted :
    receiveData true [1, 0, 0, 0, 3, 0, 0, 0] (fun _ => [49, 50]) = some (Json.num 12) ∧
    unpackUInt32 (([1, 0, 0, 0, 3, 0, 0, 0] : List Nat).drop 4 |>.take 4) = 3 ∧
    ([49, 50] : List Nat).length = 2 :=
  ⟨rfl, rfl, rfl⟩

/-- A single-equation view of `_resolve_activity_start` when the progress
    estimate is absent. -/
theorem resolve_noEstimate (now : Int) (it : WatchingItem) (key : String)
    (st : RecState) (hest : estimateStartFromProgress now it = none) :
    resolveActivityStart now it key st =
      match st.startTimestamp with
      | some prev =>
          if st.itemKey = some key
              ∧ ((firstRawTs it).2 = none ∨ (firstRawTs it).2 = st.rawStartedAt) then
            (prev, st)
          else persistFresh now key (firstRawTs it).1 (firstRawTs it).2
      | none => persistFresh now key (firstRawTs it).1 (firstRawTs it).2 := by
  simp only [resolveActivityStart, hest]

/-- Claim C10 (amended): when no source yields a timestamp, the resolver
    falls back to `now` and persists `(key, now, None)` — but only when the
    previous state does not already carry this key with a timestamp; in that
    remaining case the previous timestamp is returned and the state is left
    untouched (the reuse branch accepts a `None` raw source). -/
theorem c10_fallback_now (now : Int) (it : WatchingItem) (key : String)
    (st : RecState)
    (hest : estimateStartFromProgress now it = none)
    (hraw : firstRawTs it = (none, none))
    (hprev : st.itemKey ≠ some key ∨ st.startTimestamp = none) :
    resolveActivityStart now it key st = (now, ⟨some key, some now, none⟩) := by
  obtain ⟨k0, ts0, r0⟩ := st
  rw [resolve_noEstimate now it key _ hest]
  cases ts0 with
  | none => simp [hraw, persistFresh]
  | some prev =>
      rcases hprev with hk | hts
      · simp only []
        rw [if_neg (by simp only [] at hk ⊢; exact fun hc => hk hc.1)]
        simp [hraw, persistFresh]
      · exact absurd hts (by simp)

/-- Witness for C10: an empty item on a reset state resolves to `now` and
    persists it. -/
theorem c10_fallback_now_witness :
    resolveActivityStart 777 ⟨none, none, none, PyVal.pnone, PyVal.pnone, PyVal.pnone⟩
        "k" resetActivityState
      = (777, ⟨some "k", some 777, none⟩) :=
  c10_fallback_now 777 ⟨none, none, none, PyVal.pnone, PyVal.pnone, PyVal.pnone⟩ "k"
    resetActivityState rfl rfl (Or.inr rfl)

/-- Counterexample for C10 as stated: with a previous state for the same key,
    a poll in which no source yields a timestamp returns the previous
    timestamp (here 100, not the current time 999) and does not persist a
    fresh state. -/
theorem c10_counterexample :
    resolveActivityStart 999 ⟨none, none, none, PyVal.pnone, PyVal.pnone, PyVal.pnone⟩
        "k" ⟨some "k", some 100, some ("watched_at", PyVal.pstr "x")⟩
      = (100, ⟨some "k", some 100, some ("watched_at", PyVal.pstr "x")⟩) ∧
    (100 : Int) ≠ 999 :=
  ⟨rfl, by decide⟩

/-- The attribute loop can only record one of the three candidate attribute
    names, never the `"progress"` label. -/
theorem firstRawTs_fst_ne_progress (it : WatchingItem) (a : Option Int)
    (r : String × PyVal) (h : firstRawTs it = (a, some r)) : r.1 ≠ "progress" := by
  unfold firstRawTs at h
  rcases h1 : normalizeTimestamp it.started_at with _ | ts1
  · rcases h2 : normalizeTimestamp it.watched_at with _ | ts2
    · rcases h3 : normalizeTimestamp it.last_watched_at with _ | ts3
      · rw [h1, h2, h3] at h; simp at h
      · rw [h1, h2, h3] at h; simp at h
        obtain ⟨-, hr⟩ := h; subst hr; simp
    · rw [h1, h2] at h; simp at h
      obtain ⟨-, hr⟩ := h; subst hr; simp
  · rw [h1] at h; simp at h
    obtain ⟨-, hr⟩ := h; subst hr; simp

/-- `resolve_noEstimate` specialised to a state carrying a timestamp. -/
theorem resolve_noEst_some (now : Int) (it : WatchingItem) (key : String)
    (k0 : Option String) (prev : Int) (r0 : Option (String × PyVal))
    (hest : estimateStartFromProgress now it = none) :
    resolveActivityStart now it key ⟨k0, some prev, r0⟩ =
      if k0 = some key ∧ ((firstRawTs it).2 = none ∨ (firstRawTs it).2 = r0) then
        (prev, ⟨k0, some prev, r0⟩)
      else persistFresh now key (firstRawTs it).1 (firstRawTs it).2 := by
  simp only [resolveActivityStart, hest]

/-- `resolve_noEstimate` specialised to a state without a timestamp. -/
theorem resolve_noEst_none (now : Int) (it : WatchingItem) (key : String)
    (k0 : Option String) (r0 : Option (String × PyVal))
    (hest : estimateStartFromProgress now it = none) :
    resolveActivityStart now it key ⟨k0, none, r0⟩ =
      persistFresh now key (firstRawTs it).1 (firstRawTs it).2 := by
  simp only [resolveActivityStart, hest]

/-- Claim C4 (confirmed): two consecutive `_resolve_activity_start` calls on
    the same item and key, with no progress estimate and the attribute loop
    selecting the same raw `(attr, value)` pair both times, return the same
    start timestamp: the second call reuses the state written (or reused) by
    the first. -/
theorem c4_jitter_suppression (now1 now2 : Int) (it : WatchingItem) (key : String)
    (st0 : RecState) (ts : Int) (raw : String × PyVal)
    (h1 : estimateStartFromProgress now1 it = none)
    (h2 : estimateStartFromProgress now2 it = none)
    (hraw : firstRawTs it = (some ts, some raw)) :
    (resolveActivityStart now2 it key (resolveActivityStart now1 it key st0).2).1
      = (resolveActivityStart now1 it key st0).1 := by
  obtain ⟨k0, ts0, r0⟩ := st0
  cases ts0 with
  | none =>
      rw [resolve_noEst_none now1 it key k0 r0 h1]
      simp only [hraw, persistFresh, Option.getD_some]
      rw [resolve_noEst_some now2 it key (some key) ts (some raw) h2]
      simp [hraw]
  | some prev =>
      rw [resolve_noEst_some now1 it key k0 prev r0 h1]
      by_cases hc : k0 = some key ∧ ((firstRawTs it).2 = none ∨ (firstRawTs it).2 = r0)
      · rw [if_pos hc]
        simp only []
        rw [resolve_noEst_some now2 it key k0 prev r0 h2, if_pos hc]
      · rw [if_neg hc]
        simp only [hraw, persistFresh, Option.getD_some]
        rw [resolve_noEst_some now2 it key (some key) ts (some raw) h2]
        simp [hraw]

/-- Witness for C4: a fixed item whose `watched_at` carries an unchanged
    epoch value, polled at two different times, yields the same timestamp. -/
theorem c4_jitter_suppression_witness :
    (resolveActivityStart 1015 ⟨none, none, none, PyVal.pnone, PyVal.pint 500, PyVal.pnone⟩
        "k" (resolveActivityStart 1000
              ⟨none, none, none, PyVal.pnone, PyVal.pint 500, PyVal.pnone⟩
              "k" resetActivityState).2).1
      = (resolveActivityStart 1000
          ⟨none, none, none, PyVal.pnone, PyVal.pint 500, PyVal.pnone⟩
          "k" resetActivityState).1 :=
  c4_jitter_suppression 1000 1015
    ⟨none, none, none, PyVal.pnone, PyVal.pint 500, PyVal.pnone⟩ "k" resetActivityState
    500 ("watched_at", PyVal.pint 500) rfl rfl rfl

/-- Claim C5 (confirmed): with positive progress and a positive resolved
    runtime, `_resolve_activity_start` returns
    `max(now - floor(runtime*60*progress/100), 0)` whatever the previous
    state and whatever the raw timestamp attributes hold, and overwrites the
    state with the new key, that timestamp, and a progress raw source.
    (Python's `int()` truncation agrees with the floor on this non-negative
    product; the float arithmetic is modelled as exact rational
    arithmetic.) -/
theorem c5_progress_priority (now : Int) (it : WatchingItem) (key : String)
    (st : RecState) (p r : ℚ) (hp : it.progress = some p) (hp0 : 0 < p)
    (hr : resolvedRuntime it = some r) (hr0 : 0 < r) :
    resolveActivityStart now it key st
      = (max (now - ⌊r * 60 * (p / 100)⌋) 0,
         ⟨some key, some (max (now - ⌊r * 60 * (p / 100)⌋) 0),
          some ("progress", PyVal.pfloat p)⟩) := by
  have hq0 : (0 : ℚ) < r * 60 * (p / 100) := by positivity
  have hfl : (0 : Int) ≤ ⌊r * 60 * (p / 100)⌋ := Int.floor_nonneg.mpr hq0.le
  have hpy : pyInt (r * 60 * (p / 100)) = ⌊r * 60 * (p / 100)⌋ :=
    pyInt_eq_floor _ hq0.le
  have hest : estimateStartFromProgress now it
      = some (max (now - ⌊r * 60 * (p / 100)⌋) 0, p) := by
    unfold estimateStartFromProgress
    rw [hp, hr]
    simp only [if_neg (not_le.mpr hp0), if_neg (not_le.mpr hr0), hpy,
      if_neg (not_lt.mpr hfl)]
  simp only [resolveActivityStart, hest]

/-- Witness for C5: `progress=50`, `runtime=40` minutes at `now=2000` gives
    start `2000 - 1200 = 800`, overriding a stale `watched_at` and an
    unrelated previous state. -/
theorem c5_progress_priority_witness :
    resolveActivityStart 2000 ⟨some 50, some 40, none, PyVal.pnone, PyVal.pint 5, PyVal.pnone⟩
        "k" ⟨some "other", some 123, some ("watched_at", PyVal.pint 5)⟩
      = (max (2000 - ⌊(40 : ℚ) * 60 * ((50 : ℚ) / 100)⌋) 0,
         ⟨some "k", some (max (2000 - ⌊(40 : ℚ) * 60 * ((50 : ℚ) / 100)⌋) 0),
          some ("progress", PyVal.pfloat 50)⟩) ∧
    max (2000 - ⌊(40 : ℚ) * 60 * ((50 : ℚ) / 100)⌋) 0 = (800 : Int) :=
  ⟨c5_progress_priority 2000
      ⟨some 50, some 40, none, PyVal.pnone, PyVal.pint 5, PyVal.pnone⟩ "k"
      ⟨some "other", some 123, some ("watched_at", PyVal.pint 5)⟩ 50 40 rfl (by norm_num)
      rfl (by norm_num),
   by norm_num⟩

theorem isDigit_ofNat48 (k : Nat) (h : k < 10) : (Char.ofNat (48 + k)).isDigit = true := by
  interval_cases k <;> decide

theorem digitVal_ofNat48 (k : Nat) (h : k < 10) : digitVal (Char.ofNat (48 + k)) = k := by
  interval_cases k <;> decide

theorem isPySpace_ofNat48 (k : Nat) (h : k < 10) :
    isPySpace (Char.ofNat (48 + k)) = false := by
  interval_cases k <;> decide

theorem digitChar_ne_Z (k : Nat) (h : k < 10) : Char.ofNat (48 + k) ≠ 'Z' := by
  interval_cases k <;> decide

theorem parse2Digits_pad2 (n : Nat) (h : n < 100) (rest : List Char) :
    parse2Digits (pad2 n ++ rest) = some (n, rest) := by
  have h1 : n / 10 % 10 < 10 := Nat.mod_lt _ (by omega)
  have h2 : n % 10 < 10 := Nat.mod_lt _ (by omega)
  simp only [pad2, List.cons_append, List.nil_append, parse2Digits,
    isDigit_ofNat48 _ h1, isDigit_ofNat48 _ h2, Bool.and_self, if_true,
    digitVal_ofNat48 _ h1, digitVal_ofNat48 _ h2]
  congr 1
  congr 1
  omega

theorem parse4Digits_pad4 (n : Nat) (h : n < 10000) (rest : List Char) :
    parse4Digits (pad4 n ++ rest) = some (n, rest) := by
  have h1 : n / 1000 % 10 < 10 := Nat.mod_lt _ (by omega)
  have h2 : n / 100 % 10 < 10 := Nat.mod_lt _ (by omega)
  have h3 : n / 10 % 10 < 10 := Nat.mod_lt _ (by omega)
  have h4 : n % 10 < 10 := Nat.mod_lt _ (by omega)
  simp only [pad4, List.cons_append, List.nil_append, parse4Digits,
    isDigit_ofNat48 _ h1, isDigit_ofNat48 _ h2, isDigit_ofNat48 _ h3,
    isDigit_ofNat48 _ h4, Bool.and_self, if_true,
    digitVal_ofNat48 _ h1, digitVal_ofNat48 _ h2, digitVal_ofNat48 _ h3,
    digitVal_ofNat48 _ h4]
  congr 1
  congr 1
  omega

theorem expectChar_cons (c : Char) (rest : List Char) :
    expectChar c (c :: rest) = some rest := by simp [expectChar]

theorem parse2Digits_pad2_nil (n : Nat) (h : n < 100) :
    parse2Digits (pad2 n) = some (n, []) := by
  have := parse2Digits_pad2 n h []
  simpa using this

theorem parseTimePart_render (h mi s : Nat) (hh : h < 100) (hmi : mi < 100)
    (hs : s < 100) :
    parseTimePart (pad2 h ++ (':' :: (pad2 mi ++ (':' :: pad2 s))))
      = some (h, mi, s, 0, []) := by
  simp only [parseTimePart, parse2Digits_pad2 h hh]
  simp only [expectChar_cons, parse2Digits_pad2 mi hmi]
  simp only [expectChar_cons, parse2Digits_pad2_nil s hs]

theorem dropWhile_of_forall_false {α : Type} (p : α → Bool) (l : List α)
    (h : ∀ c ∈ l, p c = false) : l.dropWhile p = l := by
  cases l with
  | nil => rfl
  | cons a t => simp [List.dropWhile, h a (by simp)]

theorem pyStrip_of_forall (l : List Char) (h : ∀ c ∈ l, isPySpace c = false) :
    pyStrip l = l := by
  unfold pyStrip
  rw [dropWhile_of_forall_false _ _ h,
    dropWhile_of_forall_false _ _ (fun c hc => h c (List.mem_reverse.mp hc)),
    List.reverse_reverse]

theorem pad2_nospace (n : Nat) : ∀ c ∈ pad2 n, isPySpace c = false := by
  intro c hc
  simp [pad2] at hc
  rcases hc with rfl | rfl
  · exact isPySpace_ofNat48 _ (Nat.mod_lt _ (by omega))
  · exact isPySpace_ofNat48 _ (Nat.mod_lt _ (by omega))

theorem pad4_nospace (n : Nat) : ∀ c ∈ pad4 n, isPySpace c = false := by
  intro c hc
  simp [pad4] at hc
  rcases hc with rfl | rfl | rfl | rfl <;>
    exact isPySpace_ofNat48 _ (Nat.mod_lt _ (by omega))

theorem renderIsoBasic_nospace (y m d h mi s : Nat) :
    ∀ c ∈ renderIsoBasic y m d h mi s, isPySpace c = false := by
  intro c hc
  simp only [renderIsoBasic, List.mem_append, List.mem_cons] at hc
  rcases hc with hc | rfl | hc | rfl | hc | rfl | hc | rfl | hc | rfl | hc
  · exact pad4_nospace y c hc
  · decide
  · exact pad2_nospace m c hc
  · decide
  · exact pad2_nospace d c hc
  · decide
  · exact pad2_nospace h c hc
  · decide
  · exact pad2_nospace mi c hc
  · decide
  · exact pad2_nospace s c hc

theorem renderIsoBasic_getLast (y m d h mi s : Nat) :
    (renderIsoBasic y m d h mi s).getLast? = some (Char.ofNat (48 + s % 10)) := by
  simp [renderIsoBasic, pad4, pad2]

theorem daysInMonth_le (y m : Nat) : daysInMonth y m ≤ 31 := by
  unfold daysInMonth
  split_ifs <;> omega

/-- The ISO parser inverts the canonical renderer on in-range components. -/
theorem parseIsoDatetime_render (y m d h mi s : Nat)
    (hy1 : 1 ≤ y) (hy2 : y ≤ 9999) (hm1 : 1 ≤ m) (hm2 : m ≤ 12)
    (hd1 : 1 ≤ d) (hd2 : d ≤ daysInMonth y m)
    (hh : h < 24) (hmi : mi < 60) (hs : s < 60) :
    parseIsoDatetime (renderIsoBasic y m d h mi s)
      = some ⟨y, m, d, h, mi, s, 0, none⟩ := by
  have hd100 : d < 100 := by
    have := daysInMonth_le y m
    omega
  simp only [renderIsoBasic, parseIsoDatetime,
    parse4Digits_pad4 y (show y < 10000 by omega)]
  simp only [expectChar_cons, parse2Digits_pad2 m (show m < 100 by omega)]
  simp only [expectChar_cons, parse2Digits_pad2 d hd100]
  rw [if_pos ⟨hy1, hy2, hm1, hm2, hd1, hd2⟩]
  simp only [parseTimePart_render h mi s (show h < 100 by omega)
    (show mi < 100 by omega) (show s < 100 by omega)]
  simp only [parseOffsetPart]
  rw [if_pos ⟨trivial, hh, hmi, hs⟩]

theorem pyInt_intCast (n : Int) : pyInt ((n : ℚ)) = n := by
  unfold pyInt
  by_cases h : (0 : ℚ) ≤ (n : ℚ)
  · rw [if_pos h, ratFloor_intCast]
  · rw [if_neg h, show -((n : Int) : ℚ) = ((-n : Int) : ℚ) by push_cast; ring,
      ratFloor_intCast, neg_neg]

/-- Counterexample for C7 as stated: an epoch-milliseconds number is passed
    through `int(value)` unscaled — the millisecond count for 2024-01-01
    comes back as-is instead of the Unix-seconds value that the same instant
    yields through the string path. -/
theorem c7_counterexample :
    normalizeTimestamp (PyVal.pint 1704067200000) = some 1704067200000 ∧
    normalizeTimestamp (PyVal.pstr "2024-01-01T00:00:00Z") = some 1704067200 ∧
    (1704067200000 : Int) ≠ 1704067200 :=
  ⟨rfl, rfl, by decide⟩

theorem datetimeToUnix_noUsec (y m d h mi s : Nat) (off : Int) :
    datetimeToUnix ⟨y, m, d, h, mi, s, 0, some off⟩
      = daysFromCivil y m d * 86400 + h * 3600 + mi * 60 + s - off := by
  unfold datetimeToUnix
  simp only [Nat.cast_zero, zero_div, add_zero, pyInt_intCast]

/-- The string branch of `_normalize_timestamp` maps every in-range
    `YYYY-MM-DDTHH:MM:SS` rendering to the POSIX timestamp of its
    components, read as UTC. -/
theorem normalizeTimestamp_render (y m d h mi s : Nat)
    (hy1 : 1 ≤ y) (hy2 : y ≤ 9999) (hm1 : 1 ≤ m) (hm2 : m ≤ 12)
    (hd1 : 1 ≤ d) (hd2 : d ≤ daysInMonth y m)
    (hh : h < 24) (hmi : mi < 60) (hs : s < 60) :
    normalizeTimestamp (PyVal.pstr (String.mk (renderIsoBasic y m d h mi s)))
      = some (daysFromCivil y m d * 86400 + h * 3600 + mi * 60 + s) := by
  have hZ : ¬((renderIsoBasic y m d h mi s).getLast? = some 'Z') := by
    rw [renderIsoBasic_getLast]
    intro hcon
    exact digitChar_ne_Z (s % 10) (Nat.mod_lt _ (by omega)) (Option.some.inj hcon)
  simp only [normalizeTimestamp]
  rw [pyStrip_of_forall _ (renderIsoBasic_nospace y m d h mi s)]
  rw [if_neg hZ]
  rw [parseIsoDatetime_render y m d h mi s hy1 hy2 hm1 hm2 hd1 hd2 hh hmi hs]
  simp only [replaceUtcIfNaive]
  rw [datetimeToUnix_noUsec]
  norm_num

/-- Claim C7 (amended): `_normalize_timestamp` never raises; numeric inputs
    come back as `int(value)` unchanged (correct for epoch seconds; epoch
    milliseconds are NOT rescaled); every in-range canonical ISO-8601 string
    yields the Unix seconds of its components read as UTC (universally via
    the renderer round-trip), and the trailing-Z, fractional-second,
    explicit-offset, space-separated and padded-whitespace shapes are
    exercised concretely; naive and aware datetimes yield their truncated
    POSIX timestamps; unparseable strings, `None` and other objects yield
    `None`. -/
theorem c7_normalize_timestamp :
    (∀ n : Int, normalizeTimestamp (PyVal.pint n) = some n) ∧
    (∀ q : ℚ, normalizeTimestamp (PyVal.pfloat q) = some (pyInt q)) ∧
    (∀ y m d h mi s : Nat, 1 ≤ y → y ≤ 9999 → 1 ≤ m → m ≤ 12 → 1 ≤ d →
        d ≤ daysInMonth y m → h < 24 → mi < 60 → s < 60 →
      normalizeTimestamp (PyVal.pstr (String.mk (renderIsoBasic y m d h mi s)))
        = some (daysFromCivil y m d * 86400 + h * 3600 + mi * 60 + s)) ∧
    normalizeTimestamp (PyVal.pstr "2024-01-01T00:00:00Z") = some 1704067200 ∧
    normalizeTimestamp (PyVal.pstr "2024-01-01T00:00:00.500Z") = some 1704067200 ∧
    normalizeTimestamp (PyVal.pstr "2024-01-01T05:30:00+05:30") = some 1704067200 ∧
    normalizeTimestamp (PyVal.pstr "  2024-01-01 00:00:00.123456+0000  ")
      = some 1704067200 ∧
    normalizeTimestamp (PyVal.pdt ⟨2024, 1, 1, 0, 0, 0, 0, none⟩) = some 1704067200 ∧
    normalizeTimestamp (PyVal.pdt ⟨2024, 1, 1, 5, 30, 0, 500000, some 19800⟩)
      = some 1704067200 ∧
    normalizeTimestamp (PyVal.pstr "not-a-date") = none ∧
    normalizeTimestamp (PyVal.pstr "2024-02-30T00:00:00") = none ∧
    normalizeTimestamp PyVal.pnone = none ∧
    normalizeTimestamp PyVal.pother = none := by
  refine ⟨fun n => rfl, fun q => rfl, normalizeTimestamp_render,
    ?_, ?_, ?_, ?_, ?_, ?_, ?_, ?_, rfl, rfl⟩ <;> rfl

/-- Witness for C7 at concrete components: 2023-06-15T12:34:56 is Unix
    second 1686832496. -/
theorem c7_normalize_timestamp_witness :
    normalizeTimestamp (PyVal.pstr (String.mk (renderIsoBasic 2023 6 15 12 34 56)))
      = some (daysFromCivil 2023 6 15 * 86400 + 12 * 3600 + 34 * 60 + 56) ∧
    daysFromCivil 2023 6 15 * 86400 + 12 * 3600 + 34 * 60 + 56 = (1686832496 : Int) :=
  ⟨c7_normalize_timestamp.2.2.1 2023 6 15 12 34 56 (by norm_num) (by norm_num)
      (by norm_num) (by norm_num) (by norm_num) (by decide) (by norm_num) (by norm_num)
      (by norm_num),
   by decide⟩

theorem digitChar_ne_zeroChar (k : Nat) (h1 : 1 ≤ k) (h2 : k < 10) :
    Char.ofNat (48 + k) ≠ '0' := by
  interval_cases k <;> decide

theorem natRepr_digits (n : Nat) : ∀ c ∈ natRepr n, c.isDigit = true := by
  induction n using Nat.strong_induction_on with
  | _ n ih =>
    intro c hc
    unfold natRepr at hc
    by_cases h : n < 10
    · rw [if_pos h] at hc
      simp at hc
      subst hc
      exact isDigit_ofNat48 n h
    · rw [if_neg h] at hc
      rcases List.mem_append.mp hc with hc | hc
      · exact ih (n / 10) (Nat.div_lt_self (by omega) (by omega)) c hc
      · simp at hc
        subst hc
        exact isDigit_ofNat48 _ (Nat.mod_lt _ (by omega))

theorem natRepr_head_cons (n : Nat) :
    ∃ c t, natRepr n = c :: t ∧ c.isDigit = true ∧ (1 ≤ n → c ≠ '0') := by
  induction n using Nat.strong_induction_on with
  | _ n ih =>
    by_cases h : n < 10
    · refine ⟨Char.ofNat (48 + n), [], ?_, isDigit_ofNat48 n h, ?_⟩
      · unfold natRepr
        rw [if_pos h]
      · intro h1
        exact digitChar_ne_zeroChar n h1 h
    · obtain ⟨c, t, heq, hdig, hne⟩ := ih (n / 10) (Nat.div_lt_self (by omega) (by omega))
      refine ⟨c, t ++ [Char.ofNat (48 + n % 10)], ?_, hdig, fun _ => hne (by omega)⟩
      unfold natRepr
      rw [if_neg h, heq]
      simp

theorem digitsVal_natRepr (n : Nat) : digitsVal (natRepr n) = n := by
  induction n using Nat.strong_induction_on with
  | _ n ih =>
    unfold natRepr
    by_cases h : n < 10
    · rw [if_pos h]
      simp [digitsVal, digitVal_ofNat48 n h]
    · rw [if_neg h]
      unfold digitsVal
      rw [List.foldl_append]
      have := ih (n / 10) (Nat.div_lt_self (by omega) (by omega))
      unfold digitsVal at this
      rw [this]
      simp [digitVal_ofNat48 _ (Nat.mod_lt n (by omega))]
      omega

theorem takeWhile_append_all {α : Type} (p : α → Bool) (l1 l2 : List α)
    (h1 : ∀ c ∈ l1, p c = true)
    (h2 : ∀ c, l2.head? = some c → p c = false) :
    (l1 ++ l2).takeWhile p = l1 ∧ (l1 ++ l2).dropWhile p = l2 := by
  induction l1 with
  | nil =>
      simp only [List.nil_append]
      cases l2 with
      | nil => simp
      | cons a t => simp [List.takeWhile_cons, List.dropWhile_cons, h2 a rfl]
  | cons a t ih =>
      have ha := h1 a (by simp)
      have iht := ih (fun c hc => h1 c (by simp [hc]))
      simp [List.takeWhile_cons, List.dropWhile_cons, ha, iht.1, iht.2]

theorem numDelim_headIsDigit (rest : List Char) (h : numDelim rest = true) :
    headIsDigit rest = false := by
  cases rest with
  | nil => rfl
  | cons c t =>
      simp [numDelim] at h
      obtain ⟨⟨⟨hd, -⟩, -⟩, -⟩ := h
      simp [headIsDigit, hd]

theorem numDelim_numStopOk (rest : List Char) (h : numDelim rest = true) :
    numStopOk rest = true := by
  cases rest with
  | nil => rfl
  | cons c t =>
      simp [numDelim] at h
      obtain ⟨⟨⟨-, hdot⟩, he⟩, hE⟩ := h
      simp [numStopOk, hdot, he, hE]

theorem numDelim_head_not_digit (rest : List Char) (h : numDelim rest = true) :
    ∀ c, rest.head? = some c → c.isDigit = false := by
  intro c hc
  cases rest with
  | nil => simp at hc
  | cons a t =>
      simp at hc
      subst hc
      simp [numDelim] at h
      exact h.1.1.1

theorem parseNatNum_natRepr (n : Nat) (rest : List Char)
    (hrest : numDelim rest = true) :
    parseNatNum (natRepr n ++ rest) = some (n, rest) := by
  by_cases h0 : n = 0
  · subst h0
    have : natRepr 0 = ['0'] := by unfold natRepr; rw [if_pos (by omega)]
    rw [this]
    simp only [List.cons_append, List.nil_append, parseNatNum, if_pos rfl,
      numDelim_headIsDigit rest hrest, numDelim_numStopOk rest hrest]
    simp
  · obtain ⟨c, t, heq, hdig, hne⟩ := natRepr_head_cons n
    have ht : ∀ x ∈ t, x.isDigit = true := fun x hx =>
      natRepr_digits n x (by rw [heq]; simp [hx])
    have htw := takeWhile_append_all Char.isDigit t rest ht
      (numDelim_head_not_digit rest hrest)
    rw [heq]
    simp only [List.cons_append, parseNatNum,
      if_neg (hne (by omega)), hdig, if_pos rfl, htw.1, htw.2,
      numDelim_numStopOk rest hrest]
    have : digitsVal (c :: t) = n := by
      rw [show c :: t = natRepr n from heq.symm, digitsVal_natRepr]
    simp [this]

theorem digit_ne_dash (c : Char) (h : c.isDigit = true) : c ≠ '-' := by
  intro hc
  subst hc
  simp [Char.isDigit] at h

theorem parseNumber_intRepr (n : Int) (rest : List Char)
    (hrest : numDelim rest = true) :
    parseNumber (intRepr n ++ rest) = some (Json.num n, rest) := by
  by_cases hn : n < 0
  · rw [intRepr, if_pos hn]
    simp only [List.cons_append, parseNumber, if_pos rfl,
      parseNatNum_natRepr n.natAbs rest hrest]
    simp only [Option.map, if_true]
    rw [show -((n.natAbs : Nat) : Int) = n by omega]
  · rw [intRepr, if_neg hn]
    obtain ⟨c, t, heq, hdig, -⟩ := natRepr_head_cons n.toNat
    rw [heq]
    simp only [List.cons_append, parseNumber, if_neg (digit_ne_dash c hdig)]
    rw [← List.cons_append, ← heq, parseNatNum_natRepr n.toNat rest hrest]
    simp [show ((n.toNat : Nat) : Int) = n by omega]

theorem char_toNat_facts (c : Char) :
    (c.toNat < 55296 ∨ 57343 < c.toNat) ∧ c.toNat < 1114112 := by
  have h := c.valid
  simp only [Char.toNat]
  rcases h with h | ⟨h1, h2⟩
  · exact ⟨Or.inl h, by omega⟩
  · exact ⟨Or.inr h1, h2⟩

theorem hexVal_hexDigitCh (k : Nat) (h : k < 16) : hexVal (hexDigitCh k) = some k := by
  interval_cases k <;> decide

theorem hexVal_hexDigitCh_mod (k : Nat) :
    hexVal (hexDigitCh (k % 16)) = some (k % 16) :=
  hexVal_hexDigitCh _ (Nat.mod_lt _ (by omega))

theorem hexVal4_hex (n : Nat) (hn : n < 65536) :
    hexVal4 (hexDigitCh (n / 4096 % 16)) (hexDigitCh (n / 256 % 16))
      (hexDigitCh (n / 16 % 16)) (hexDigitCh (n % 16)) = some n := by
  simp only [hexVal4, hexVal_hexDigitCh_mod]
  simp only [Option.some.injEq]
  omega

theorem parseStringBody_uescape_bmp (fu n : Nat) (hn : n < 65536)
    (hns1 : ¬(55296 ≤ n ∧ n ≤ 56319)) (hns2 : ¬(56320 ≤ n ∧ n ≤ 57343))
    (tail l r : List Char) (hrec : parseStringBody fu tail = some (l, r)) :
    parseStringBody (fu + 3) ('\\' :: 'u' :: (hex4Chars n ++ tail))
      = some (Char.ofNat n :: l, r) := by
  rw [show fu + 3 = (fu + 2) + 1 from rfl, parseStringBody]
  simp only [hex4Chars, List.cons_append, List.nil_append]
  rw [show fu + 2 = (fu + 1) + 1 from rfl]
  simp only [parseEsc, parseUEsc, hexVal4_hex n hn]
  simp [hns1, hns2, hrec]

theorem parseStringBody_uescape_pair (fu n m : Nat)
    (hn1 : 55296 ≤ n) (hn2 : n ≤ 56319) (hm1 : 56320 ≤ m) (hm2 : m ≤ 57343)
    (tail l r : List Char) (hrec : parseStringBody fu tail = some (l, r)) :
    parseStringBody (fu + 4)
        ('\\' :: 'u' :: (hex4Chars n ++ ('\\' :: 'u' :: (hex4Chars m ++ tail))))
      = some (Char.ofNat (65536 + (n - 55296) * 1024 + (m - 56320)) :: l, r) := by
  rw [show fu + 4 = (fu + 3) + 1 from rfl, parseStringBody]
  simp only [hex4Chars, List.cons_append, List.nil_append]
  rw [show fu + 3 = (fu + 2) + 1 from rfl]
  simp only [parseEsc]
  rw [show fu + 2 = (fu + 1) + 1 from rfl]
  simp only [parseUEsc, hexVal4_hex n (by omega)]
  simp only [parseLowSur, hexVal4_hex m (by omega)]
  simp [hn1, hn2, hm1, hm2, hrec]

/-- A simple backslash escape parses back to its character. -/
theorem parseStringBody_twoChar (fu : Nat) (e ch : Char)
    (he : escapeMap e = some ch) (hu : ¬e = 'u') (tail l r : List Char)
    (hrec : parseStringBody fu tail = some (l, r)) :
    parseStringBody (fu + 2) ('\\' :: e :: tail) = some (ch :: l, r) := by
  rw [show fu + 2 = (fu + 1) + 1 from rfl, parseStringBody]
  simp [parseEsc, hu, he, hrec]

/-- One encoder escape parses back to the character it encodes, consuming
    `escFuel` of the scanner's fuel. -/
theorem parseStringBody_escapeChar (fu : Nat) (c : Char) (tail l r : List Char)
    (hrec : parseStringBody fu tail = some (l, r)) :
    parseStringBody (fu + escFuel c) (escapeChar c ++ tail) = some (c :: l, r) := by
  by_cases h1 : c = '"'
  · subst h1
    rw [show escFuel '"' = 2 from rfl,
      show escapeChar '"' = ['\\', '"'] from rfl, List.cons_append,
      List.cons_append, List.nil_append]
    exact parseStringBody_twoChar fu '"' '"' rfl (by decide) tail l r hrec
  by_cases h2 : c = '\\'
  · subst h2
    rw [show escFuel '\\' = 2 from rfl,
      show escapeChar '\\' = ['\\', '\\'] from rfl, List.cons_append,
      List.cons_append, List.nil_append]
    exact parseStringBody_twoChar fu '\\' '\\' rfl (by decide) tail l r hrec
  by_cases h3 : c = '\n'
  · subst h3
    rw [show escFuel '\n' = 2 from rfl,
      show escapeChar '\n' = ['\\', 'n'] from rfl, List.cons_append,
      List.cons_append, List.nil_append]
    exact parseStringBody_twoChar fu 'n' '\n' rfl (by decide) tail l r hrec
  by_cases h4 : c = '\t'
  · subst h4
    rw [show escFuel '\t' = 2 from rfl,
      show escapeChar '\t' = ['\\', 't'] from rfl, List.cons_append,
      List.cons_append, List.nil_append]
    exact parseStringBody_twoChar fu 't' '\t' rfl (by decide) tail l r hrec
  by_cases h5 : c = '\r'
  · subst h5
    rw [show escFuel '\r' = 2 from rfl,
      show escapeChar '\r' = ['\\', 'r'] from rfl, List.cons_append,
      List.cons_append, List.nil_append]
    exact parseStringBody_twoChar fu 'r' '\r' rfl (by decide) tail l r hrec
  by_cases h6 : c = '\x08'
  · subst h6
    rw [show escFuel '\x08' = 2 from rfl,
      show escapeChar '\x08' = ['\\', 'b'] from rfl, List.cons_append,
      List.cons_append, List.nil_append]
    exact parseStringBody_twoChar fu 'b' '\x08' rfl (by decide) tail l r hrec
  by_cases h7 : c = '\x0c'
  · subst h7
    rw [show escFuel '\x0c' = 2 from rfl,
      show escapeChar '\x0c' = ['\\', 'f'] from rfl, List.cons_append,
      List.cons_append, List.nil_append]
    exact parseStringBody_twoChar fu 'f' '\x0c' rfl (by decide) tail l r hrec
  have hval := char_toNat_facts c
  by_cases hout : c.toNat < 32 ∨ 126 < c.toNat
  · by_cases hbmp : c.toNat ≤ 65535
    · rw [escFuel, if_neg h1, if_neg h2, if_neg h3, if_neg h4, if_neg h5,
        if_neg h6, if_neg h7, if_pos hout, if_pos hbmp]
      rw [escapeChar, if_neg h1, if_neg h2, if_neg h3, if_neg h4, if_neg h5,
        if_neg h6, if_neg h7, if_pos hout, if_pos hbmp]
      rw [List.cons_append, List.cons_append]
      rw [parseStringBody_uescape_bmp fu c.toNat (by omega) (by omega) (by omega)
        tail l r hrec]
      rw [Char.ofNat_toNat]
    · rw [escFuel, if_neg h1, if_neg h2, if_neg h3, if_neg h4, if_neg h5,
        if_neg h6, if_neg h7, if_pos hout, if_neg hbmp]
      rw [escapeChar, if_neg h1, if_neg h2, if_neg h3, if_neg h4, if_neg h5,
        if_neg h6, if_neg h7, if_pos hout, if_neg hbmp]
      have hdiv : (c.toNat - 65536) / 1024 ≤ 1023 := by omega
      have hmod : (c.toNat - 65536) % 1024 < 1024 := Nat.mod_lt _ (by omega)
      simp only [List.cons_append, List.append_assoc, List.nil_append]
      rw [parseStringBody_uescape_pair fu (55296 + (c.toNat - 65536) / 1024)
        (56320 + (c.toNat - 65536) % 1024) (by omega) (by omega) (by omega)
        (by omega) tail l r hrec]
      rw [show 65536 + (55296 + (c.toNat - 65536) / 1024 - 55296) * 1024
            + (56320 + (c.toNat - 65536) % 1024 - 56320) = c.toNat by omega]
      rw [Char.ofNat_toNat]
  · rw [escFuel, if_neg h1, if_neg h2, if_neg h3, if_neg h4, if_neg h5,
      if_neg h6, if_neg h7, if_neg hout]
    rw [escapeChar, if_neg h1, if_neg h2, if_neg h3, if_neg h4, if_neg h5,
      if_neg h6, if_neg h7, if_neg hout]
    rw [List.cons_append, List.nil_append]
    rw [parseStringBody]
    simp [h1, h2, show ¬c.toNat < 32 by omega, hrec]

/-- The fuel one character consumes never exceeds the characters emitted
    for it, so length-plus-one fuel is always enough. -/
theorem escFuel_le (c : Char) : escFuel c ≤ (escapeChar c).length := by
  by_cases h1 : c = '"'
  · simp [escFuel, escapeChar, h1]
  by_cases h2 : c = '\\'
  · simp [escFuel, escapeChar, h1, h2]
  by_cases h3 : c = '\n'
  · simp [escFuel, escapeChar, h1, h2, h3]
  by_cases h4 : c = '\t'
  · simp [escFuel, escapeChar, h1, h2, h3, h4]
  by_cases h5 : c = '\r'
  · simp [escFuel, escapeChar, h1, h2, h3, h4, h5]
  by_cases h6 : c = '\x08'
  · simp [escFuel, escapeChar, h1, h2, h3, h4, h5, h6]
  by_cases h7 : c = '\x0c'
  · simp [escFuel, escapeChar, h1, h2, h3, h4, h5, h6, h7]
  by_cases hout : c.toNat < 32 ∨ 126 < c.toNat
  · by_cases hbmp : c.toNat ≤ 65535 <;>
      simp [escFuel, escapeChar, h1, h2, h3, h4, h5, h6, h7, hout, hbmp,
        hex4Chars]
  · simp [escFuel, escapeChar, h1, h2, h3, h4, h5, h6, h7, hout]

theorem escFuelSum_le (s : List Char) : escFuelSum s ≤ (escapeString s).length := by
  induction s with
  | nil => simp [escFuelSum, escapeString]
  | cons c t ih =>
      have := escFuel_le c
      simp only [escFuelSum, escapeString, List.length_append]
      omega

theorem parseStringBody_escapeString (s : List Char) : ∀ (fu : Nat) (rest : List Char),
    parseStringBody (escFuelSum s + (fu + 1)) (escapeString s ++ '"' :: rest)
      = some (s, rest) := by
  induction s with
  | nil =>
      intro fu rest
      simp only [escFuelSum, escapeString, Nat.zero_add, List.nil_append]
      rw [parseStringBody]
      simp
  | cons c t ih =>
      intro fu rest
      simp only [escFuelSum, escapeString, List.append_assoc]
      rw [show escFuel c + escFuelSum t + (fu + 1)
            = (escFuelSum t + (fu + 1)) + escFuel c by omega]
      exact parseStringBody_escapeChar _ c _ t rest (ih fu rest)

theorem parseJString_dumps (s : String) (rest : List Char) :
    parseJString (escapeString s.data ++ '"' :: rest) = some (s, rest) := by
  rw [parseJString]
  have hle := escFuelSum_le s.data
  rw [show (escapeString s.data ++ '"' :: rest).length + 1
        = escFuelSum s.data
            + (((escapeString s.data).length - escFuelSum s.data
                + rest.length + 1) + 1) from by
      simp only [List.length_append, List.length_cons]
      omega]
  rw [parseStringBody_escapeString]
  rfl

theorem skipWs_cons_nonws (c : Char) (t : List Char) (h : isWsChar c = false) :
    skipWs (c :: t) = c :: t := by
  rw [skipWs, h]
  simp

theorem skipWs_cons_sp (t : List Char) : skipWs (' ' :: t) = skipWs t := by
  rw [skipWs, show isWsChar ' ' = true from rfl]
  simp

theorem digit_head_facts (c : Char) (h : c.isDigit = true) :
    c ≠ '"' ∧ c ≠ '[' ∧ c ≠ lbraceCh ∧ c ≠ 'n' ∧ c ≠ 't' ∧ c ≠ 'f'
      ∧ c ≠ ']' ∧ isWsChar c = false := by
  refine ⟨?_, ?_, ?_, ?_, ?_, ?_, ?_, ?_⟩
  · intro he; rw [he] at h; exact absurd h (by decide)
  · intro he; rw [he] at h; exact absurd h (by decide)
  · intro he; rw [he] at h; exact absurd h (by decide)
  · intro he; rw [he] at h; exact absurd h (by decide)
  · intro he; rw [he] at h; exact absurd h (by decide)
  · intro he; rw [he] at h; exact absurd h (by decide)
  · intro he; rw [he] at h; exact absurd h (by decide)
  · cases hws : isWsChar c
    · rfl
    · exfalso
      simp [isWsChar] at hws
      rcases hws with ((h1 | h1) | h1) | h1 <;> (rw [h1] at h; exact absurd h (by decide))

theorem intRepr_head (n : Int) :
    ∃ c t, intRepr n = c :: t ∧ (c = '-' ∨ c.isDigit = true) := by
  by_cases hn : n < 0
  · exact ⟨'-', natRepr n.natAbs, by rw [intRepr, if_pos hn], Or.inl rfl⟩
  · obtain ⟨c, t, heq, hdig, -⟩ := natRepr_head_cons n.toNat
    exact ⟨c, t, by rw [intRepr, if_neg hn, heq], Or.inr hdig⟩

theorem dumpsVal_head (v : Json) :
    ∃ c t, dumpsVal v = c :: t ∧ isWsChar c = false ∧ c ≠ ']' := by
  cases v with
  | null => exact ⟨'n', ['u', 'l', 'l'], rfl, rfl, by decide⟩
  | bool b =>
      cases b
      · exact ⟨'f', ['a', 'l', 's', 'e'], rfl, rfl, by decide⟩
      · exact ⟨'t', ['r', 'u', 'e'], rfl, rfl, by decide⟩
  | num n =>
      obtain ⟨c, t, heq, hc⟩ := intRepr_head n
      rcases hc with hc | hc
      · subst hc
        exact ⟨'-', t, by simp only [dumpsVal, heq], rfl, by decide⟩
      · have hf := digit_head_facts c hc
        exact ⟨c, t, by simp only [dumpsVal, heq], hf.2.2.2.2.2.2.2,
          hf.2.2.2.2.2.2.1⟩
  | str s => exact ⟨'"', escapeString s.data ++ ['"'], rfl, rfl, by decide⟩
  | arr l =>
      cases l with
      | nil => exact ⟨'[', [']'], rfl, rfl, by decide⟩
      | cons x xs =>
          exact ⟨'[', dumpsVal x ++ (dumpsArrTail xs ++ [']']), rfl, rfl, by decide⟩
  | obj l =>
      cases l with
      | nil => exact ⟨lbraceCh, [rbraceCh], rfl, rfl, by decide⟩
      | cons m ms =>
          exact ⟨lbraceCh, dumpsMember m ++ (dumpsMemTail ms ++ [rbraceCh]), rfl,
            rfl, by decide⟩

theorem skipWs_dumps (v : Json) (rest : List Char) :
    skipWs (dumpsVal v ++ rest) = dumpsVal v ++ rest := by
  obtain ⟨c, t, heq, hws, -⟩ := dumpsVal_head v
  rw [heq, List.cons_append, skipWs_cons_nonws _ _ hws]

theorem numDelim_arrTail (xs : List Json) (rest : List Char) :
    numDelim (dumpsArrTail xs ++ ']' :: rest) = true := by
  cases xs <;> rfl

theorem numDelim_memTail (ms : List (String × Json)) (rest : List Char) :
    numDelim (dumpsMemTail ms ++ rbraceCh :: rest) = true := by
  cases ms <;> rfl

set_option maxHeartbeats 2000000 in
/-- The scanner inverts the encoder: on any encoder output followed by a
    delimiter the encoder can emit, `parseValue` returns exactly the encoded
    value, with the matching continuation statements for array and object
    tails. Fuel one larger than the encoded length is always enough because
    every fuel decrement consumes at least one character. -/
theorem parse_dumps (fuel : Nat) :
    (∀ v rest, (dumpsVal v).length < fuel → numDelim rest = true →
        parseValue fuel (dumpsVal v ++ rest) = some (v, rest))
    ∧ (∀ es acc rest, (dumpsArrTail es).length < fuel →
        parseArrTail fuel (dumpsArrTail es ++ ']' :: rest) acc
          = some (Json.arr (acc ++ es), rest))
    ∧ (∀ ms acc rest, (dumpsMemTail ms).length < fuel →
        parseMemTail fuel (dumpsMemTail ms ++ rbraceCh :: rest) acc
          = some (Json.obj (acc ++ ms), rest)) := by
  induction fuel using Nat.strong_induction_on with
  | _ fuel ih =>
  rcases fuel with _ | f
  · exact ⟨fun v rest h _ => absurd h (by omega),
      fun es acc rest h => absurd h (by omega),
      fun ms acc rest h => absurd h (by omega)⟩
  refine ⟨?_, ?_, ?_⟩
  · intro v rest hlen hrest
    cases v with
    | null =>
        simp only [dumpsVal, List.cons_append, List.nil_append]
        rw [parseValue]
        try simp only []
        rw [if_neg (by decide : ¬('n' : Char) = '"'),
          if_neg (by decide : ¬('n' : Char) = '['),
          if_neg (by decide : ¬('n' : Char) = lbraceCh)]
        simp only [if_true]
        rw [parseLit3]
        rw [if_pos ⟨rfl, rfl, rfl⟩]
    | bool b =>
        cases b
        · simp only [dumpsVal, List.cons_append, List.nil_append]
          rw [parseValue]
          try simp only []
          rw [if_neg (by decide : ¬('f' : Char) = '"'),
            if_neg (by decide : ¬('f' : Char) = '['),
            if_neg (by decide : ¬('f' : Char) = lbraceCh),
            if_neg (by decide : ¬('f' : Char) = 'n'),
            if_neg (by decide : ¬('f' : Char) = 't')]
          simp only [if_true]
          rw [parseLit4]
          rw [if_pos ⟨rfl, rfl, rfl, rfl⟩]
        · simp only [dumpsVal, List.cons_append, List.nil_append]
          rw [parseValue]
          try simp only []
          rw [if_neg (by decide : ¬('t' : Char) = '"'),
            if_neg (by decide : ¬('t' : Char) = '['),
            if_neg (by decide : ¬('t' : Char) = lbraceCh),
            if_neg (by decide : ¬('t' : Char) = 'n')]
          simp only [if_true]
          rw [parseLit3]
          rw [if_pos ⟨rfl, rfl, rfl⟩]
    | num n =>
        obtain ⟨c, t, heq, hc⟩ := intRepr_head n
        have hfacts : c ≠ '"' ∧ c ≠ '[' ∧ c ≠ lbraceCh ∧ c ≠ 'n' ∧ c ≠ 't'
            ∧ c ≠ 'f' := by
          rcases hc with hc | hc
          · subst hc
            exact ⟨by decide, by decide, by decide, by decide, by decide, by decide⟩
          · have hf := digit_head_facts c hc
            exact ⟨hf.1, hf.2.1, hf.2.2.1, hf.2.2.2.1, hf.2.2.2.2.1,
              hf.2.2.2.2.2.1⟩
        simp only [dumpsVal]
        rw [heq, List.cons_append, parseValue]
        try simp only []
        rw [if_neg hfacts.1, if_neg hfacts.2.1, if_neg hfacts.2.2.1,
          if_neg hfacts.2.2.2.1, if_neg hfacts.2.2.2.2.1,
          if_neg hfacts.2.2.2.2.2]
        rw [← List.cons_append, ← heq]
        exact parseNumber_intRepr n rest hrest
    | str s =>
        simp only [dumpsVal, List.cons_append, List.append_assoc,
          List.singleton_append, List.nil_append]
        rw [parseValue]
        try simp only []
        simp only [if_true]
        rw [parseJString_dumps]
        rfl
    | arr l =>
        cases l with
        | nil =>
            simp only [dumpsVal, List.cons_append, List.nil_append]
            rw [parseValue]
            try simp only []
            rw [if_neg (by decide : ¬('[' : Char) = '"')]
            simp only [if_true]
            rw [skipWs_cons_nonws ']' _ rfl]
            try simp only []
            simp only [if_true]
        | cons x xs =>
            obtain ⟨ch, ct, hheq, hcw, hcrb⟩ := dumpsVal_head x
            have hlen' : (dumpsVal x).length < f
                ∧ (dumpsArrTail xs).length < f := by
              simp only [dumpsVal, List.length_cons, List.length_append,
                List.length_singleton] at hlen
              omega
            have hA := (ih f (by omega)).1 x (dumpsArrTail xs ++ ']' :: rest)
              hlen'.1 (numDelim_arrTail xs rest)
            have hB := (ih f (by omega)).2.1 xs [x] rest hlen'.2
            simp only [dumpsVal, List.cons_append, List.append_assoc,
              List.singleton_append, List.nil_append]
            rw [parseValue]
            try simp only []
            rw [if_neg (by decide : ¬('[' : Char) = '"')]
            simp only [if_true]
            rw [skipWs_dumps, hheq, List.cons_append]
            try simp only []
            rw [if_neg hcrb, ← List.cons_append, ← hheq, hA]
            try simp only []
            rw [hB, List.singleton_append]
    | obj l =>
        cases l with
        | nil =>
            simp only [dumpsVal, List.cons_append, List.nil_append]
            rw [parseValue]
            try simp only []
            rw [if_neg (by decide : ¬lbraceCh = '"'),
              if_neg (by decide : ¬lbraceCh = '[')]
            simp only [if_true]
            rw [skipWs_cons_nonws rbraceCh _ rfl]
            try simp only []
            simp only [if_true]
        | cons m ms =>
            obtain ⟨k, v⟩ := m
            have hlen' : (dumpsVal v).length < f
                ∧ (dumpsMemTail ms).length < f := by
              simp only [dumpsVal, dumpsMember, List.length_cons,
                List.length_append, List.length_singleton] at hlen
              omega
            have hA := (ih f (by omega)).1 v (dumpsMemTail ms ++ rbraceCh :: rest)
              hlen'.1 (numDelim_memTail ms rest)
            have hC := (ih f (by omega)).2.2 ms [(k, v)] rest hlen'.2
            simp only [dumpsVal, dumpsMember, List.cons_append, List.append_assoc,
              List.singleton_append, List.nil_append]
            rw [parseValue]
            try simp only []
            rw [if_neg (by decide : ¬lbraceCh = '"'),
              if_neg (by decide : ¬lbraceCh = '[')]
            simp only [if_true]
            rw [skipWs_cons_nonws '"' _ rfl]
            try simp only []
            rw [if_neg (by decide : ¬('"' : Char) = rbraceCh)]
            simp only [if_true]
            rw [parseJString_dumps]
            try simp only []
            rw [skipWs_cons_nonws ':' _ rfl]
            try simp only []
            simp only [if_true]
            rw [skipWs_cons_sp, skipWs_dumps, hA]
            try simp only []
            rw [hC, List.singleton_append]
  · intro es acc rest hlen
    cases es with
    | nil =>
        simp only [dumpsArrTail, List.nil_append]
        rw [parseArrTail, skipWs_cons_nonws ']' _ rfl]
        try simp only []
        rw [if_neg (by decide : ¬(']' : Char) = ',')]
        simp only [if_true]
        rw [List.append_nil]
    | cons x xs =>
        have hlen' : (dumpsVal x).length < f ∧ (dumpsArrTail xs).length < f := by
          simp only [dumpsArrTail, List.length_cons, List.length_append] at hlen
          omega
        have hA := (ih f (by omega)).1 x (dumpsArrTail xs ++ ']' :: rest)
          hlen'.1 (numDelim_arrTail xs rest)
        have hB := (ih f (by omega)).2.1 xs (acc ++ [x]) rest hlen'.2
        simp only [dumpsArrTail, List.cons_append, List.append_assoc,
          List.singleton_append, List.nil_append]
        rw [parseArrTail, skipWs_cons_nonws ',' _ rfl]
        try simp only []
        simp only [if_true]
        rw [skipWs_cons_sp, skipWs_dumps, hA]
        try simp only []
        rw [hB, List.append_assoc, List.singleton_append]
  · intro ms acc rest hlen
    cases ms with
    | nil =>
        simp only [dumpsMemTail, List.nil_append]
        rw [parseMemTail, skipWs_cons_nonws rbraceCh _ rfl]
        try simp only []
        rw [if_neg (by decide : ¬rbraceCh = ',')]
        simp only [if_true]
        rw [List.append_nil]
    | cons m ms' =>
        obtain ⟨k, v⟩ := m
        have hlen' : (dumpsVal v).length < f
            ∧ (dumpsMemTail ms').length < f := by
          simp only [dumpsMemTail, dumpsMember, List.length_cons,
            List.length_append] at hlen
          omega
        have hA := (ih f (by omega)).1 v (dumpsMemTail ms' ++ rbraceCh :: rest)
          hlen'.1 (numDelim_memTail ms' rest)
        have hC := (ih f (by omega)).2.2 ms' (acc ++ [(k, v)]) rest hlen'.2
        simp only [dumpsMemTail, dumpsMember, List.cons_append, List.append_assoc,
          List.singleton_append, List.nil_append]
        rw [parseMemTail, skipWs_cons_nonws ',' _ rfl]
        try simp only []
        simp only [if_true]
        rw [skipWs_cons_sp, skipWs_cons_nonws '"' _ rfl]
        try simp only []
        simp only [if_true]
        rw [parseJString_dumps]
        try simp only []
        rw [skipWs_cons_nonws ':' _ rfl]
        try simp only []
        simp only [if_true]
        rw [skipWs_cons_sp, skipWs_dumps, hA]
        try simp only []
        rw [hC, List.append_assoc, List.singleton_append]

/-- `json.loads` inverts `json.dumps` on the payload model. -/
theorem loads_dumps (v : Json) : loads (dumpsVal v) = some v := by
  have h := (parse_dumps ((dumpsVal v).length + 1)).1 v [] (by omega) rfl
  rw [List.append_nil] at h
  have hsk : skipWs (dumpsVal v) = dumpsVal v := by
    have h2 := skipWs_dumps v []
    rwa [List.append_nil] at h2
  rw [loads, hsk, h]
  rfl

theorem utf8Decode_encodeChar (c : Char) (rest : List Nat) :
    utf8Decode (utf8EncodeChar c ++ rest)
      = (utf8Decode rest).map (fun cs => c :: cs) := by
  have hv := char_toNat_facts c
  by_cases h1 : c.toNat < 128
  · have henc : utf8EncodeChar c = [c.toNat] := by
      simp only [utf8EncodeChar]
      rw [if_pos h1]
    rw [henc, List.cons_append, List.nil_append, utf8Decode.eq_def]
    try simp only []
    rw [if_pos h1, Char.ofNat_toNat]
  · by_cases h2 : c.toNat < 2048
    · have henc : utf8EncodeChar c = [192 + c.toNat / 64, 128 + c.toNat % 64] := by
        simp only [utf8EncodeChar]
        rw [if_neg h1, if_pos h2]
      rw [henc, List.cons_append, List.cons_append, List.nil_append,
        utf8Decode.eq_def]
      try simp only []
      rw [if_neg (by omega), if_neg (by omega), if_pos (by omega)]
      try simp only []
      rw [if_pos (by omega : 128 ≤ 128 + c.toNat % 64 ∧ 128 + c.toNat % 64 < 192)]
      rw [show (192 + c.toNat / 64 - 192) * 64 + (128 + c.toNat % 64 - 128)
            = c.toNat by omega, Char.ofNat_toNat]
    · by_cases h3 : c.toNat < 65536
      · have henc : utf8EncodeChar c = [224 + c.toNat / 4096,
            128 + c.toNat / 64 % 64, 128 + c.toNat % 64] := by
          simp only [utf8EncodeChar]
          rw [if_neg h1, if_neg h2, if_pos h3]
        rw [henc, List.cons_append, List.cons_append, List.cons_append,
          List.nil_append, utf8Decode.eq_def]
        try simp only []
        rw [if_neg (by omega), if_neg (by omega), if_neg (by omega),
          if_pos (by omega)]
        try simp only []
        rw [if_pos (show (128 ≤ 128 + c.toNat / 64 % 64
              ∧ 128 + c.toNat / 64 % 64 < 192)
            ∧ (128 ≤ 128 + c.toNat % 64 ∧ 128 + c.toNat % 64 < 192)
            ∧ ¬(224 + c.toNat / 4096 = 224 ∧ 128 + c.toNat / 64 % 64 < 160)
            ∧ ¬(224 + c.toNat / 4096 = 237 ∧ 160 ≤ 128 + c.toNat / 64 % 64)
            by omega)]
        rw [show ((224 + c.toNat / 4096 - 224) * 64
              + (128 + c.toNat / 64 % 64 - 128)) * 64 + (128 + c.toNat % 64 - 128)
            = c.toNat by omega, Char.ofNat_toNat]
      · have henc : utf8EncodeChar c = [240 + c.toNat / 262144,
            128 + c.toNat / 4096 % 64, 128 + c.toNat / 64 % 64,
            128 + c.toNat % 64] := by
          simp only [utf8EncodeChar]
          rw [if_neg h1, if_neg h2, if_neg h3]
        rw [henc, List.cons_append, List.cons_append, List.cons_append,
          List.cons_append, List.nil_append, utf8Decode.eq_def]
        try simp only []
        rw [if_neg (by omega), if_neg (by omega), if_neg (by omega),
          if_neg (by omega), if_pos (by omega)]
        try simp only []
        rw [if_pos (show (128 ≤ 128 + c.toNat / 4096 % 64
              ∧ 128 + c.toNat / 4096 % 64 < 192)
            ∧ (128 ≤ 128 + c.toNat / 64 % 64 ∧ 128 + c.toNat / 64 % 64 < 192)
            ∧ (128 ≤ 128 + c.toNat % 64 ∧ 128 + c.toNat % 64 < 192)
            ∧ ¬(240 + c.toNat / 262144 = 240 ∧ 128 + c.toNat / 4096 % 64 < 144)
            ∧ ¬(240 + c.toNat / 262144 = 244 ∧ 144 ≤ 128 + c.toNat / 4096 % 64)
            by omega)]
        rw [show (((240 + c.toNat / 262144 - 240) * 64
              + (128 + c.toNat / 4096 % 64 - 128)) * 64
              + (128 + c.toNat / 64 % 64 - 128)) * 64 + (128 + c.toNat % 64 - 128)
            = c.toNat by omega, Char.ofNat_toNat]

/-- UTF-8 decoding inverts encoding (`bytes.decode` after `str.encode`). -/
theorem utf8Decode_encode (cs : List Char) : utf8Decode (utf8Encode cs) = some cs := by
  induction cs with
  | nil => rfl
  | cons c t ih =>
      rw [utf8Encode, utf8Decode_encodeChar, ih]
      rfl

theorem unpack_pack (n : Nat) (h : n < 4294967296) :
    unpackUInt32 (packUInt32 n) = n := by
  simp only [packUInt32, unpackUInt32]
  omega

/-- C8: for every opcode and payload the frame encoder accepts (`uint32`
    ranges for the opcode and the payload byte length — outside them
    `struct.pack` raises), decoding the frame `_send_data` writes yields
    back exactly the same `(opcode, payload)` pair, and the little-endian
    length field of the frame always equals the exact byte length of the
    UTF-8-encoded payload that follows it. -/
theorem c8_frame_roundtrip (op : Nat) (v : Json)
    (hop : op < 4294967296) (hlen : (framePayload v).length < 4294967296) :
    ∃ fr, frameBytes op v = some fr
      ∧ decodeFrame fr = some (op, v)
      ∧ unpackUInt32 ((fr.drop 4).take 4) = (fr.drop 8).length := by
  refine ⟨packUInt32 op ++ (packUInt32 (framePayload v).length ++ framePayload v),
    ?_, ?_, ?_⟩
  · simp only [frameBytes]
    rw [if_pos ⟨hop, hlen⟩]
  · have hfr : (packUInt32 op
        ++ (packUInt32 (framePayload v).length ++ framePayload v)).length
        = 8 + (framePayload v).length := by
      simp [packUInt32, List.length_append]
      omega
    simp only [decodeFrame]
    rw [if_neg (by omega),
      List.take_left' (by simp [packUInt32] : (packUInt32 op).length = 4),
      List.drop_left' (by simp [packUInt32] : (packUInt32 op).length = 4),
      List.take_left' (by simp [packUInt32]
        : (packUInt32 (framePayload v).length).length = 4),
      show (8 : Nat) = 4 + 4 from rfl, ← List.drop_drop,
      List.drop_left' (by simp [packUInt32] : (packUInt32 op).length = 4),
      List.drop_left' (by simp [packUInt32]
        : (packUInt32 (framePayload v).length).length = 4),
      unpack_pack op hop, unpack_pack _ hlen, List.take_length, framePayload,
      utf8Decode_encode]
    try simp only []
    rw [loads_dumps]
    rfl
  · rw [List.drop_left' (by simp [packUInt32] : (packUInt32 op).length = 4),
      List.take_left' (by simp [packUInt32]
        : (packUInt32 (framePayload v).length).length = 4),
      show (8 : Nat) = 4 + 4 from rfl, ← List.drop_drop,
      List.drop_left' (by simp [packUInt32] : (packUInt32 op).length = 4),
      List.drop_left' (by simp [packUInt32]
        : (packUInt32 (framePayload v).length).length = 4),
      unpack_pack _ hlen]

theorem c8_frame_roundtrip_witness :
    (1 : Nat) < 4294967296
    ∧ (framePayload (Json.obj [("cmd", Json.str "SET_ACTIVITY")])).length
        < 4294967296
    ∧ ∃ fr, frameBytes 1 (Json.obj [("cmd", Json.str "SET_ACTIVITY")]) = some fr
        ∧ decodeFrame fr = some (1, Json.obj [("cmd", Json.str "SET_ACTIVITY")])
        ∧ unpackUInt32 ((fr.drop 4).take 4) = (fr.drop 8).length :=
  ⟨by decide, by decide,
    c8_frame_roundtrip 1 (Json.obj [("cmd", Json.str "SET_ACTIVITY")])
      (by decide) (by decide)⟩
